import Mathlib

/-!
# Block compressor of `tutorials/allolib-s21` (`050_CompressorFJ.cpp`, `compression.cpp`)

A shallow embedding of `CompressorPlugin::operator()` and of the statistics
de-duplication around it.

Conventions of the embedding.

* `float` samples are idealised as elements of a linear ordered field `α`
  (instantiated with `ℚ` in the concrete examples): no rounding, no NaN.
* `AudioIOData` is the list of its output frames; `io.frame(0)` followed by the
  `k`-th call of `io()` selects frame `k - 1` and `io()` is false once the frames
  are exhausted, so a loop `for (i = 0; io() && i < BLOCK_SIZE; i++)` visits frame `i`
  at iteration `i` and is written as a recursion over the frames with the counter `i`.
* The fixed-size arrays `sidechain_buf`, `gain_buf`, `look_buf` are lists; a write
  is `List.set`, a read is `List.getD _ _ 0` (the statements only speak of
  indices that are inside the arrays).
* `std::log10`, `std::pow` and the two classes of the `SimpleCompressor` library are
  not part of the sources; they are parameters (`Libm`, `SimpleCompressor`).
* `std::cout` is the list of the lines written, a line being the list of its
  labelled numbers; a number printed as `linearToDecibels(v)` is recorded by `v`.
* Where a statement is about the components themselves, the static curve of the gain
  computer (`staticReduction`) and the look-ahead delay line (`LookaheadBuffer`) are
  modelled from the spec; their definitions say so.
* The special values of float arithmetic appear only in `linearToDecibelsFloat`.
-/

set_option maxRecDepth 8192

namespace Compressor

variable {α : Type} [LinearOrderedField α]

/-! ## Constants and free functions -/

/-- The global `const int BLOCK_SIZE = 128`. -/
def BLOCK_SIZE : Nat := 128

/-- The two functions of the C math library used by the decibel conversions. -/
structure Libm (α : Type) where
  log10 : α → α
  pow : α → α → α

/-- Source `linearToDecibels`: `20.f * std::log10(std::abs(linear))`. -/
def linearToDecibels (m : Libm α) (linear : α) : α :=
  20 * m.log10 (abs linear)

/-- Source `decibelsToLinear`: `std::pow(10.f, decibels / 20.f)`. -/
def decibelsToLinear (m : Libm α) (decibels : α) : α :=
  m.pow 10 (decibels / 20)

/-- Source `class CompressorStats`. -/
structure CompressorStats (α : Type) where
  pre_peak : α
  duck : α
  post_peak : α
deriving DecidableEq, Repr

/-- Source `approxEqual`: `std::abs(l - r) < 0.0001f`. -/
def approxEqual (l r : α) : Bool :=
  decide (abs (l - r) < 1 / 10000)

/-- Source `operator==(const CompressorStats &, const CompressorStats &)`. -/
def CompressorStats.operator_eq (l r : CompressorStats α) : Bool :=
  approxEqual l.pre_peak r.pre_peak && approxEqual l.duck r.duck
    && approxEqual l.post_peak r.post_peak

/-! ## Audio buffer -/

/-- One frame of the stereo output buffer: `io.out(0)` and `io.out(1)`. -/
structure Frame (α : Type) where
  out0 : α
  out1 : α
deriving DecidableEq, Repr

/-- The output frames of an `AudioIOData`, in frame order. -/
abbrev AudioIOData (α : Type) := List (Frame α)

/-! ## The loops of `CompressorPlugin::operator()` -/

/-- Lines 91-95 of `050_CompressorFJ.cpp` (63-66 of `compression.cpp`), from iteration `i`:
`sidechain_buf[i] = std::max(std::abs(io.out(0)), std::abs(io.out(1)))`. -/
def sidechainLoop : List (Frame α) → Nat → List α → List α
  | [], _, sidechain_buf => sidechain_buf
  | f :: rest, i, sidechain_buf =>
    if i < BLOCK_SIZE then
      sidechainLoop rest (i + 1) (sidechain_buf.set i (max (abs f.out0) (abs f.out1)))
    else
      sidechain_buf

/-- Body of the loop at lines 122-131, from iteration `i` with the running
`pre_peak`, `duck`, `post_peak` in `st`; returns the frames after the multiply and the
final values of the three locals. -/
def applyGainLoop (gain_buf : List α) :
    List (Frame α) → Nat → CompressorStats α → List (Frame α) × CompressorStats α
  | [], _, st => ([], st)
  | f :: rest, i, st =>
    if i < BLOCK_SIZE then
      let pre_peak := max (max st.pre_peak (abs f.out0)) (abs f.out1)
      let duck := min st.duck (gain_buf.getD i 0)
      let o0 := f.out0 * gain_buf.getD i 0
      let o1 := f.out1 * gain_buf.getD i 0
      let post_peak := max (max st.post_peak (abs o0)) (abs o1)
      let r := applyGainLoop gain_buf rest (i + 1) ⟨pre_peak, duck, post_peak⟩
      (⟨o0, o1⟩ :: r.1, r.2)
    else
      (f :: rest, st)

/-- Lines 118-131: `pre_peak = 0; duck = 1; post_peak = 0; io.frame(0);` and the loop. -/
def applyGain (gain_buf : List α) (frames : AudioIOData α) :
    AudioIOData α × CompressorStats α :=
  applyGainLoop gain_buf frames 0 ⟨0, 1, 0⟩

/-- Lines 112-115: `gain_buf[i] = decibelsToLinear(look_buf[i])` for `i < block_size`. -/
def lookaheadToLinear (m : Libm α) (block_size : Nat) (look_buf gain_buf : List α) : List α :=
  (List.range block_size).foldl
    (fun g i => g.set i (decibelsToLinear m (look_buf.getD i 0))) gain_buf

/-! ## Diagnostics -/

/-- A line written to `std::cout`: its labels, each with the value whose decibel
conversion is printed after it. -/
abbrev Line (α : Type) := List (String × α)

/-- Lines 133-144 of `050_CompressorFJ.cpp`: what is printed, and `previousStats` afterwards. -/
def updateStats (debug : Bool) (previousStats : CompressorStats α) (pre_peak duck post_peak : α) :
    List (Line α) × CompressorStats α :=
  if debug then
    let currentStats : CompressorStats α := ⟨pre_peak, duck, post_peak⟩
    if !(currentStats.operator_eq previousStats) then
      ([[("pre_peak:  ", pre_peak), ("compress:  ", duck), ("post_peak: ", post_peak)]],
        currentStats)
    else
      ([], previousStats)
  else
    ([], previousStats)

/-- Lines 99-103 of `compression.cpp`: three lines for every block while `debug` is set. -/
def printStats (debug : Bool) (pre_peak duck post_peak : α) : List (Line α) :=
  if debug then
    [[("pre_peak: ", pre_peak)], [("compress: ", duck)], [("post_peak: ", post_peak)]]
  else
    []

/-! ## The plugin -/

/-- The member functions of `GainReductionComputer` (state `G`) and of
`LookAheadGainReduction` (state `L`) that the plugin calls. A call that fills a
destination array gets the array as it was and returns it as it is afterwards. -/
structure SimpleCompressor (α G L : Type) where
  computeGainInDecibelsFromSidechainSignal : G → List α → List α → Nat → G × List α
  computeLinearGainFromSidechainSignal : G → List α → List α → Nat → G × List α
  pushSamples : L → List α → Nat → L
  process : L → L
  readSamples : L → List α → Nat → L × List α

/-- Data members of `CompressorPlugin<block_size>` in `050_CompressorFJ.cpp`. -/
structure CompressorPlugin (α G L : Type) where
  useLookAhead : Bool
  debug : Bool
  previousStats : CompressorStats α
  gain : G
  lookahead : L
  sidechain_buf : List α
  gain_buf : List α
  look_buf : List α

/-- What one call of `operator()` leaves behind: the object, the audio frames, the final
values of the locals `pre_peak`, `duck`, `post_peak`, and the lines printed. -/
structure CallResult (α G L : Type) where
  plugin : CompressorPlugin α G L
  frames : AudioIOData α
  stats : CompressorStats α
  cout : List (Line α)

/-- Lines 97-116: the gain computer call and, with `useLookAhead`, the look-ahead
round trip; returns the two component states, `look_buf` and `gain_buf`. -/
def computeGain {G L : Type} (m : Libm α) (lib : SimpleCompressor α G L) (block_size : Nat)
    (p : CompressorPlugin α G L) (sidechain_buf : List α) : G × L × List α × List α :=
  if p.useLookAhead then
    let g := lib.computeGainInDecibelsFromSidechainSignal p.gain sidechain_buf p.gain_buf block_size
    let l1 := lib.pushSamples p.lookahead g.2 block_size
    let l2 := lib.process l1
    let l3 := lib.readSamples l2 p.look_buf block_size
    (g.1, l3.1, l3.2, lookaheadToLinear m block_size l3.2 g.2)
  else
    let g := lib.computeLinearGainFromSidechainSignal p.gain sidechain_buf p.gain_buf block_size
    (g.1, p.lookahead, p.look_buf, g.2)

/-- Source `CompressorPlugin::operator()` of `050_CompressorFJ.cpp` (lines 88-147). -/
def CompressorPlugin.operator_call {G L : Type} (m : Libm α) (lib : SimpleCompressor α G L)
    (block_size : Nat) (p : CompressorPlugin α G L) (frames : AudioIOData α) :
    CallResult α G L :=
  let sidechain_buf := sidechainLoop frames 0 p.sidechain_buf
  let c := computeGain m lib block_size p sidechain_buf
  let a := applyGain c.2.2.2 frames
  let u := updateStats p.debug p.previousStats a.2.pre_peak a.2.duck a.2.post_peak
  { plugin :=
      { useLookAhead := p.useLookAhead, debug := p.debug, previousStats := u.2,
        gain := c.1, lookahead := c.2.1,
        sidechain_buf := sidechain_buf, gain_buf := c.2.2.2, look_buf := c.2.2.1 },
    frames := a.1, stats := a.2, cout := u.1 }

/-- Source `CompressorPlugin::operator()` of `compression.cpp` (lines 61-106); that class
has no `previousStats` member, the field is carried along untouched. -/
def CompressorPlugin.operator_call_compression {G L : Type} (m : Libm α)
    (lib : SimpleCompressor α G L) (block_size : Nat) (p : CompressorPlugin α G L)
    (frames : AudioIOData α) : CallResult α G L :=
  let sidechain_buf := sidechainLoop frames 0 p.sidechain_buf
  let c := computeGain m lib block_size p sidechain_buf
  let a := applyGain c.2.2.2 frames
  { plugin :=
      { useLookAhead := p.useLookAhead, debug := p.debug, previousStats := p.previousStats,
        gain := c.1, lookahead := c.2.1,
        sidechain_buf := sidechain_buf, gain_buf := c.2.2.2, look_buf := c.2.2.1 },
    frames := a.1, stats := a.2,
    cout := printStats p.debug a.2.pre_peak a.2.duck a.2.post_peak }

/-- The `UpdateStats` step (lines 133-144) on a block whose gain loop ended with the
locals `(pre_peak, duck, post_peak) = s`. -/
def blockStep (debug : Bool) (previousStats s : CompressorStats α) :
    List (Line α) × CompressorStats α :=
  updateStats debug previousStats s.pre_peak s.duck s.post_peak

/-- The `UpdateStats` step over consecutive blocks, given each block's
`(pre_peak, duck, post_peak)`: what each block prints and `previousStats` after it. -/
def updateStatsSeq (debug : Bool) :
    CompressorStats α → List (CompressorStats α) → List (List (Line α) × CompressorStats α)
  | _, [] => []
  | previousStats, s :: rest =>
    blockStep debug previousStats s :: updateStatsSeq debug (blockStep debug previousStats s).2 rest

/-- The diagnostics of `compression.cpp` over consecutive blocks, given each block's
`(pre_peak, duck, post_peak)`: what each block prints. -/
def printStatsSeq (debug : Bool) (blocks : List (CompressorStats α)) : List (List (Line α)) :=
  blocks.map (fun s => printStats debug s.pre_peak s.duck s.post_peak)

/-- Some field of `s` differs from the same field of `r` by at least `1e-4`. -/
def fieldDiffers (s r : CompressorStats α) : Prop :=
  1 / 10000 ≤ abs (s.pre_peak - r.pre_peak) ∨ 1 / 10000 ≤ abs (s.duck - r.duck)
    ∨ 1 / 10000 ≤ abs (s.post_peak - r.post_peak)

/-- Consecutive calls of `operator()` on one plugin object, one per audio block. -/
def processBlocks {G L : Type} (m : Libm α) (lib : SimpleCompressor α G L) (block_size : Nat) :
    CompressorPlugin α G L → List (AudioIOData α) → List (CallResult α G L)
  | _, [] => []
  | p, frames :: rest =>
    let r := p.operator_call m lib block_size frames
    r :: processBlocks m lib block_size r.plugin rest

/-- The locals `pre_peak`, `duck`, `post_peak` after one iteration of the gain loop on
frame `f` at index `i` (used to state the unfolding lemma below). -/
def statsAfter (g : List α) (f : Frame α) (i : Nat) (st : CompressorStats α) :
    CompressorStats α :=
  ⟨max (max st.pre_peak (abs f.out0)) (abs f.out1), min st.duck (g.getD i 0),
    max (max st.post_peak (abs (f.out0 * g.getD i 0))) (abs (f.out1 * g.getD i 0))⟩

/-! ## Concrete data used in the examples -/

/-- A stand-in for the library in the examples: the gain computer writes the constant `c`
into the first `n` entries of its destination, the look-ahead stores nothing and leaves
the destination of `readSamples` as it is. -/
def constLib (c : ℚ) : SimpleCompressor ℚ Unit Unit where
  computeGainInDecibelsFromSidechainSignal := fun g _ dst n => (g, List.replicate n c ++ dst.drop n)
  computeLinearGainFromSidechainSignal := fun g _ dst n => (g, List.replicate n c ++ dst.drop n)
  pushSamples := fun l _ _ => l
  process := fun l => l
  readSamples := fun l dst _ => (l, dst)

/-- A stand-in for the math library in the examples (they never look at its results). -/
def stubLibm : Libm ℚ := ⟨fun _ => 0, fun _ _ => 1⟩

/-- A `CompressorPlugin<128>` with the member initialisers of the class
(`useLookAhead = false`, `debug = true`, `previousStats = (0, 1, 0)`) and zeroed arrays. -/
def freshPlugin : CompressorPlugin ℚ Unit Unit where
  useLookAhead := false
  debug := true
  previousStats := ⟨0, 1, 0⟩
  gain := ()
  lookahead := ()
  sidechain_buf := List.replicate 128 0
  gain_buf := List.replicate 128 0
  look_buf := List.replicate 128 0

/-! ## The decibel conversions over the real numbers -/

/-- The math library over the real numbers: `std::log10` is the logarithm to base `10` and
`std::pow` the real power function (the sources call it with base `10` only). -/
noncomputable def realLibm : Libm ℝ := ⟨Real.logb 10, fun b e => b ^ e⟩

/-! ## The constructor -/

/-- The arguments of the calls made by the constructor `CompressorPlugin()`
(lines 76-86 of `050_CompressorFJ.cpp`, 50-59 of `compression.cpp`). -/
structure PluginSetup (α : Type) where
  gainSampleRate : α
  threshold : α
  ratio : α
  knee : α
  attackTime : α
  delayTime : α
  lookaheadSampleRate : α
  lookaheadCapacity : Nat

/-- Source constructor: `gain.prepare(48000.)`, `gain.setThreshold(-5.f)`,
`gain.setRatio(100.f)`, `gain.setKnee(20.f)`, `gain.setAttackTime(0.0025f)`,
`lookahead.setDelayTime(0.005f)`, `lookahead.prepare(48000., 2 * block_size)`. -/
def constructorSetup (block_size : Nat) : PluginSetup α where
  gainSampleRate := 48000
  threshold := -5
  ratio := 100
  knee := 20
  attackTime := 25 / 10000
  delayTime := 5 / 1000
  lookaheadSampleRate := 48000
  lookaheadCapacity := 2 * block_size

/-- The number of whole samples in `seconds` at `sampleRate`: the delay in samples
that `setDelayTime(seconds)` stands for. -/
def delayInSamples [FloorRing α] (seconds sampleRate : α) : Nat :=
  ⌊seconds * sampleRate⌋₊

/-! ## The static curve of the gain computer -/

/-- Modelled from the spec: the static decibel gain-reduction curve of
`GainReductionComputer` (its code, `SimpleCompressor/src/GainReductionComputer.cpp`, is not
among the sources). Spec 4.1: below `threshold - knee/2` no reduction; above
`threshold + knee/2` the reduction `(x - threshold) * (1 - 1/ratio)`; within the knee
window the quadratic interpolation between the two regimes, which is
`(1 - 1/ratio) * (x - threshold + knee/2)^2 / (2 * knee)`. -/
def staticReduction (threshold knee ratio x : α) : α :=
  if x < threshold - knee / 2 then 0
  else if x ≤ threshold + knee / 2 then
    (1 - 1 / ratio) * (x - threshold + knee / 2) ^ 2 / (2 * knee)
  else (x - threshold) * (1 - 1 / ratio)

/-- The slope of `staticReduction` at `x` (used to state its differentiability): `0` below
the knee window, `1 - 1/ratio` above it, and rising linearly inside it. -/
def staticSlope (threshold knee ratio x : α) : α :=
  (1 - 1 / ratio) * min (max (x - (threshold - knee / 2)) 0) knee / knee

/-! ## Decibel conversion with the special values of float arithmetic -/

/-- A result of float arithmetic: a finite number or one of the special values
of IEEE 754. -/
inductive FloatResult (α : Type) where
  | finite (x : α)
  | posInf
  | negInf
  | nan
deriving DecidableEq, Repr

/-- Whether a float result is a finite number. -/
def FloatResult.isFinite : FloatResult α → Bool
  | .finite _ => true
  | _ => false

/-- `std::log10` of a finite argument with its special results: `log10(0)` is `-inf`
(pole error) and the logarithm of a negative number is NaN. -/
def log10Float (m : Libm α) (x : α) : FloatResult α :=
  if x = 0 then .negInf else if x < 0 then .nan else .finite (m.log10 x)

/-- The product `c * r` of a finite `c` and a float result `r`: an infinity keeps or flips
its sign with the sign of `c`, and `0 * inf` and `c * NaN` are NaN. -/
def FloatResult.scale (c : α) : FloatResult α → FloatResult α
  | .finite x => .finite (c * x)
  | .posInf => if 0 < c then .posInf else if c < 0 then .negInf else .nan
  | .negInf => if 0 < c then .negInf else if c < 0 then .posInf else .nan
  | .nan => .nan

/-- Source `linearToDecibels`, `20.f * std::log10(std::abs(linear))`, on a finite argument
with the special values of float arithmetic. -/
def linearToDecibelsFloat (m : Libm α) (linear : α) : FloatResult α :=
  FloatResult.scale 20 (log10Float m (abs linear))

/-! ## The look-ahead delay line -/

/-- Modelled from the spec: the state of `LookAheadGainReduction`, whose code
(`SimpleCompressor/src/LookAheadGainReduction.cpp`) is not among the sources. Spec 3,
LookaheadBuffer: a fixed-capacity ring buffer of decibel values with a write cursor and a
read cursor offset by the configured delay (in samples). The capacity is the length of
`buffer`. -/
structure LookaheadBuffer (α : Type) where
  delay : Nat
  buffer : List α
  writeCursor : Nat
  readCursor : Nat

/-- Modelled from the spec: `prepare(sampleRate, bufferCapacitySamples)` of the absent
`LookAheadGainReduction`, for a delay of `delay` samples: it allocates the ring buffer and
primes all slots to 0 dB; the read cursor starts `delay` slots behind the write cursor,
wrapped. -/
def LookaheadBuffer.prepare (delay capacity : Nat) : LookaheadBuffer α where
  delay := delay
  buffer := List.replicate capacity 0
  writeCursor := 0
  readCursor := (capacity - delay % capacity) % capacity

/-- Modelled from the spec: `pushSamples(buffer, n)` of the absent `LookAheadGainReduction`:
it writes `n` decibel values into the ring at the write cursor, advancing it with
wraparound. -/
def LookaheadBuffer.pushSamples (s : LookaheadBuffer α) (src : List α) (n : Nat) :
    LookaheadBuffer α where
  delay := s.delay
  buffer := (List.range n).foldl
    (fun b j => b.set ((s.writeCursor + j) % s.buffer.length) (src.getD j 0)) s.buffer
  writeCursor := (s.writeCursor + n) % s.buffer.length
  readCursor := s.readCursor

/-- Modelled from the spec: `process()` of the absent `LookAheadGainReduction`: a no-op
placeholder between push and read. -/
def LookaheadBuffer.process (s : LookaheadBuffer α) : LookaheadBuffer α := s

/-- Modelled from the spec: `readSamples(outBuffer, n)` of the absent
`LookAheadGainReduction`: it reads `n` decibel values starting at the read cursor into the
first `n` entries of `outBuffer`, advancing the read cursor by `n` with wraparound. -/
def LookaheadBuffer.readSamples (s : LookaheadBuffer α) (dst : List α) (n : Nat) :
    LookaheadBuffer α × List α :=
  ({ delay := s.delay, buffer := s.buffer, writeCursor := s.writeCursor,
     readCursor := (s.readCursor + n) % s.buffer.length },
    (List.range n).foldl
      (fun d j => d.set j (s.buffer.getD ((s.readCursor + j) % s.buffer.length) 0)) dst)

/-- The library `lib` with its look-ahead component replaced by the model of the spec. -/
def withLookaheadModel {G L : Type} (lib : SimpleCompressor α G L) :
    SimpleCompressor α G (LookaheadBuffer α) where
  computeGainInDecibelsFromSidechainSignal := lib.computeGainInDecibelsFromSidechainSignal
  computeLinearGainFromSidechainSignal := lib.computeLinearGainFromSidechainSignal
  pushSamples := fun s src n => s.pushSamples src n
  process := fun s => s.process
  readSamples := fun s dst n => s.readSamples dst n

/-- The calls that one block makes on the look-ahead component when `useLookAhead` is set
(lines 108-110): `pushSamples(gain_buf, n)`, `process()`, `readSamples(look_buf, n)`. -/
def LookaheadBuffer.block (s : LookaheadBuffer α) (gain_buf look_buf : List α) (n : Nat) :
    LookaheadBuffer α × List α :=
  ((s.pushSamples gain_buf n).process).readSamples look_buf n

/-- Consecutive blocks on the look-ahead component: the state and `look_buf` after each,
given the decibel array each block pushes. -/
def LookaheadBuffer.run (n : Nat) :
    LookaheadBuffer α → List α → List (List α) → List (LookaheadBuffer α × List α)
  | _, _, [] => []
  | s, look_buf, g :: rest =>
    s.block g look_buf n :: LookaheadBuffer.run n (s.block g look_buf n).1
      (s.block g look_buf n).2 rest

/-- The decibel arrays that consecutive calls of `operator()` with `useLookAhead` set push
into the look-ahead component: the output of `computeGainInDecibelsFromSidechainSignal`
of each block. -/
def pushedDecibels {G L : Type} (m : Libm α) (lib : SimpleCompressor α G L) (block_size : Nat) :
    CompressorPlugin α G L → List (AudioIOData α) → List (List α)
  | _, [] => []
  | p, frames :: rest =>
    (lib.computeGainInDecibelsFromSidechainSignal p.gain
        (sidechainLoop frames 0 p.sidechain_buf) p.gain_buf block_size).2
      :: pushedDecibels m lib block_size (p.operator_call m lib block_size frames).plugin rest

/-- The invariant of the delay line for a configured `delay` and `capacity`: the cursors
are inside the ring, the write cursor leads the read cursor by the delay modulo the
capacity, and every slot holds `0` (0 dB) or a value for which `P` holds. -/
def LookaheadBuffer.Inv (delay capacity : Nat) (P : α → Prop) (s : LookaheadBuffer α) : Prop :=
  s.delay = delay ∧ s.buffer.length = capacity ∧ s.writeCursor < capacity ∧
    s.readCursor < capacity ∧
    (s.readCursor + delay) % capacity = s.writeCursor % capacity ∧
    ∀ v ∈ s.buffer, v = 0 ∨ P v

/-- A `CompressorPlugin<128>` with `useLookAhead` set, whose look-ahead component is the
model of the spec as the constructor configures it: a delay of `240` samples
(`setDelayTime(0.005f)` at `48000` Hz) and the capacity `2 * 128`. -/
def lookaheadPlugin : CompressorPlugin ℚ Unit (LookaheadBuffer ℚ) where
  useLookAhead := true
  debug := true
  previousStats := ⟨0, 1, 0⟩
  gain := ()
  lookahead := LookaheadBuffer.prepare 240 256
  sidechain_buf := List.replicate 128 0
  gain_buf := List.replicate 128 0
  look_buf := List.replicate 128 0

end Compressor

/-! # Notes and sequences (`032_TimeSignature.cpp`, `050_CompressorFJ.cpp`) -/

namespace Sequencer

variable {α : Type} [LinearOrderedField α]

/-- Source `class Note`: its six `float` members. -/
structure Note (α : Type) where
  freq : α
  time : α
  duration : α
  amp : α
  attack : α
  decay : α
deriving DecidableEq, Repr

/-- Source `Note::Note(const Note &n, float beatOffset, float ampMult)`. -/
def Note.offset (n : Note α) (beatOffset ampMult : α) : Note α :=
  { freq := n.freq
    time := n.time + beatOffset
    duration := n.duration
    amp := n.amp * ampMult
    attack := n.attack
    decay := n.decay }

/-- The same constructor called with `ampMult` omitted: the default argument `1.0f`. -/
def Note.offsetDefault (n : Note α) (beatOffset : α) : Note α :=
  Note.offset n beatOffset 1

/-- Source constructor `Note(freq, time, duration, amp)` with `attack` and `decay` left at
their default arguments `0.05f`. -/
def Note.make (freq time duration amp : α) : Note α :=
  { freq := freq, time := time, duration := duration, amp := amp,
    attack := 5 / 100, decay := 5 / 100 }

/-- Source `class TimeSignature`. -/
structure TimeSignature where
  upper : Int
  lower : Int
deriving DecidableEq, Repr

/-- Source default constructor `TimeSignature()`: `4/4`. -/
def TimeSignature.default : TimeSignature := ⟨4, 4⟩

/-- Source `class Sequence`: a time signature and the vector of its notes. -/
structure Sequence (α : Type) where
  ts : TimeSignature
  notes : List (Note α)

/-- Source constructor `Sequence(TimeSignature ts)`: no notes. -/
def Sequence.new (ts : TimeSignature) : Sequence α := ⟨ts, []⟩

/-- Source `Sequence::add`: `notes.push_back(n)`. -/
def Sequence.add (t : Sequence α) (n : Note α) : Sequence α :=
  { ts := t.ts, notes := t.notes ++ [n] }

/-- Source `Sequence::addSequence(Sequence *s, float startBeat, float ampMult)` for a source
object other than the target: `for (auto &note : *(s->getNotes())) add(Note(note, startBeat,
ampMult))`. -/
def Sequence.addSequence (t s : Sequence α) (startBeat ampMult : α) : Sequence α :=
  s.notes.foldl (fun acc note => acc.add (Note.offset note startBeat ampMult)) t

/-- The same member function called with `ampMult` omitted: the default argument `1.0`. -/
def Sequence.addSequenceDefault (t s : Sequence α) (startBeat : α) : Sequence α :=
  t.addSequence s startBeat 1

/-- The `Sequence` objects of the program by address. -/
abbrev SequenceHeap (α : Type) := Nat → Sequence α

/-- The call `t->addSequence(s, startBeat, ampMult)` on the objects at the addresses `t`
and `s`: every `add` changes the object at `t`. The loop runs over the notes that the
source holds when the call starts (for `t = s` the C++ loop would invalidate its own
iterator). -/
def SequenceHeap.addSequence (h : SequenceHeap α) (t s : Nat) (startBeat ampMult : α) :
    SequenceHeap α :=
  (h s).notes.foldl
    (fun h1 note => Function.update h1 t ((h1 t).add (Note.offset note startBeat ampMult))) h

/-! ## Playing a sequence -/

/-- Source `enum Instrument` of `050_CompressorFJ.cpp`. -/
inductive Instrument where
  | INSTR_SQUARE
  | INSTR_FM
  | NUM_INSTRUMENTS
deriving DecidableEq, Repr

/-- The arguments of one call of `playNote(freq, time, duration, amp, attack, decay)`. -/
structure PlayNoteCall (α : Type) where
  freq : α
  time : α
  duration : α
  amp : α
  attack : α
  decay : α
deriving DecidableEq, Repr

/-- Source `MyApp::playSequence(Sequence *s, float bpm)` of `032_TimeSignature.cpp`: the
calls of `playNote` it makes, in order. -/
def playSequence (s : Sequence α) (bpm : α) : List (PlayNoteCall α) :=
  let secondsPerBeat := 60 / bpm
  s.notes.map (fun note =>
    { freq := note.freq, time := note.time * secondsPerBeat,
      duration := note.duration * secondsPerBeat, amp := note.amp,
      attack := note.attack, decay := note.decay })

/-- Source `MyApp::playSequence(Sequence *s, float bpm, Instrument instrument)` of
`050_CompressorFJ.cpp`: the calls of `playNote` it makes, in order, each with the
instrument passed along. -/
def playSequenceInstrument (s : Sequence α) (bpm : α) (instrument : Instrument) :
    List (PlayNoteCall α × Instrument) :=
  let secondsPerBeat := 60 / bpm
  s.notes.map (fun note =>
    ({ freq := note.freq, time := note.time * secondsPerBeat,
       duration := note.duration * secondsPerBeat, amp := note.amp,
       attack := note.attack, decay := note.decay }, instrument))

/-! ## Frere Jacques -/

/-- Source `const float C4 = 261.6`. -/
def C4 : α := 2616 / 10

/-- Source `const float D4 = 293.7`. -/
def D4 : α := 2937 / 10

/-- Source `const float E4 = 329.6`. -/
def E4 : α := 3296 / 10

/-- Source `const float F4 = 349.2`. -/
def F4 : α := 3492 / 10

/-- Source `const float G4 = 392.0`. -/
def G4 : α := 392

/-- Source `const float A4 = 440.0`. -/
def A4 : α := 440

/-- Source `const float G3 = G4 / 2.0`. -/
def G3 : α := G4 / 2

/-- Source `playNote(freq, time, duration, amp)` as called in `030_FrereJacque.cpp`, with
`attack` and `decay` left at their default arguments `0.1`. -/
def playNoteCall (freq time duration amp : α) : PlayNoteCall α :=
  { freq := freq, time := time, duration := duration, amp := amp,
    attack := 1 / 10, decay := 1 / 10 }

/-- Source `MyApp::playSequenceB(float offset)` of `030_FrereJacque.cpp`: its 32 calls of
`playNote`, in order. -/
def playSequenceB (offset : α) : List (PlayNoteCall α) :=
  [ playNoteCall (C4 * offset) 0 (1 / 2) (1 / 10),
    playNoteCall (D4 * offset) 1 (1 / 2) (2 / 10),
    playNoteCall (E4 * offset) 2 (1 / 2) (3 / 10),
    playNoteCall (C4 * offset) 3 (1 / 2) (2 / 10),
    playNoteCall (C4 * offset) 4 (1 / 2) (1 / 10),
    playNoteCall (D4 * offset) 5 (1 / 2) (2 / 10),
    playNoteCall (E4 * offset) 6 (1 / 2) (3 / 10),
    playNoteCall (C4 * offset) 7 (1 / 2) (1 / 10),
    playNoteCall (E4 * offset) 8 (1 / 2) (3 / 10),
    playNoteCall (F4 * offset) 9 (1 / 2) (4 / 10),
    playNoteCall (G4 * offset) 10 1 (5 / 10),
    playNoteCall (E4 * offset) 12 (1 / 2) (1 / 10),
    playNoteCall (F4 * offset) 13 (1 / 2) (2 / 10),
    playNoteCall (G4 * offset) 14 1 (3 / 10),
    playNoteCall (G4 * offset) 16 (1 / 4) (2 / 10),
    playNoteCall (A4 * offset) (165 / 10) (1 / 4) (3 / 10),
    playNoteCall (G4 * offset) 17 (1 / 4) (4 / 10),
    playNoteCall (F4 * offset) (175 / 10) (1 / 4) (45 / 100),
    playNoteCall (E4 * offset) 18 (1 / 2) (5 / 10),
    playNoteCall (C4 * offset) 19 (1 / 2) (25 / 100),
    playNoteCall (G4 * offset) 20 (1 / 4) (1 / 10),
    playNoteCall (A4 * offset) (205 / 10) (1 / 4) (2 / 10),
    playNoteCall (G4 * offset) 21 (1 / 4) (25 / 100),
    playNoteCall (F4 * offset) (215 / 10) (1 / 4) (2 / 10),
    playNoteCall (E4 * offset) 22 (1 / 2) (1 / 10),
    playNoteCall (C4 * offset) 23 (1 / 2) (1 / 10),
    playNoteCall (C4 * offset) 24 (1 / 2) (2 / 10),
    playNoteCall (G3 * offset) 25 (1 / 2) (1 / 10),
    playNoteCall (C4 * offset) 26 1 (5 / 100),
    playNoteCall (C4 * offset) 28 (1 / 2) (15 / 100),
    playNoteCall (G3 * offset) 29 (1 / 2) (5 / 100),
    playNoteCall (C4 * offset) 30 1 (3 / 100) ]

/-- Source `MyApp::sequenceFJPhrase1` (the same in `032_TimeSignature.cpp` and
`050_CompressorFJ.cpp`). -/
def sequenceFJPhrase1 (offset : α) : Sequence α :=
  ((((Sequence.new TimeSignature.default).add (Note.make (C4 * offset) 0 (1 / 2) (5 / 100))).add
    (Note.make (D4 * offset) 1 (1 / 2) (1 / 10))).add
    (Note.make (E4 * offset) 2 (1 / 2) (2 / 10))).add
    (Note.make (C4 * offset) 3 (1 / 2) (5 / 100))

/-- Source `MyApp::sequenceFJPhrase2` of `032_TimeSignature.cpp`. -/
def sequenceFJPhrase2 (offset : α) : Sequence α :=
  (((Sequence.new TimeSignature.default).add (Note.make (E4 * offset) 0 (1 / 2) (1 / 10))).add
    (Note.make (F4 * offset) 1 (1 / 2) (2 / 10))).add
    (Note.make (G4 * offset) 2 1 (3 / 10))

/-- Source `MyApp::sequenceFJPhrase3` of `032_TimeSignature.cpp`. -/
def sequenceFJPhrase3 (offset : α) : Sequence α :=
  ((((((Sequence.new TimeSignature.default).add
    (Note.make (G4 * offset) 0 (1 / 4) (2 / 10))).add
    (Note.make (A4 * offset) (1 / 2) (1 / 4) (3 / 10))).add
    (Note.make (G4 * offset) 1 (1 / 4) (4 / 10))).add
    (Note.make (F4 * offset) (15 / 10) (1 / 4) (45 / 100))).add
    (Note.make (E4 * offset) 2 (1 / 2) (5 / 10))).add
    (Note.make (C4 * offset) 3 (1 / 2) (25 / 100))

/-- Source `MyApp::sequenceFJPhrase4` (the same in `032_TimeSignature.cpp` and
`050_CompressorFJ.cpp`). -/
def sequenceFJPhrase4 (offset : α) : Sequence α :=
  (((Sequence.new TimeSignature.default).add (Note.make (C4 * offset) 0 (1 / 2) (2 / 10))).add
    (Note.make (G3 * offset) 1 (1 / 2) (1 / 10))).add
    (Note.make (C4 * offset) 2 1 (5 / 100))

/-- Source `MyApp::sequenceFJ` of `032_TimeSignature.cpp`; every phrase is a new object. -/
def sequenceFJ (offset : α) : Sequence α :=
  ((((((((Sequence.new TimeSignature.default).addSequenceDefault (sequenceFJPhrase1 offset) 0
    ).addSequence (sequenceFJPhrase1 offset) 4 (2 / 10)
    ).addSequence (sequenceFJPhrase2 offset) 8 (5 / 10)
    ).addSequence (sequenceFJPhrase2 offset) 12 1
    ).addSequence (sequenceFJPhrase3 offset) 16 1
    ).addSequence (sequenceFJPhrase3 offset) 20 (5 / 10)
    ).addSequence (sequenceFJPhrase4 offset) 24 1
    ).addSequence (sequenceFJPhrase4 offset) 28 (5 / 10)

/-- Source `MyApp::sequenceFJPhrase2` of `050_CompressorFJ.cpp`. -/
def sequenceFJPhrase2_050 (offset : α) : Sequence α :=
  (((Sequence.new TimeSignature.default).add (Note.make (E4 * offset) 0 (1 / 2) (1 / 10))).add
    (Note.make (F4 * offset) 1 (1 / 2) (2 / 10))).add
    (Note.make (G4 * offset) 2 1 (25 / 100))

/-- Source `MyApp::sequenceFJPhrase3` of `050_CompressorFJ.cpp`. -/
def sequenceFJPhrase3_050 (offset : α) : Sequence α :=
  ((((((Sequence.new TimeSignature.default).add
    (Note.make (G4 * offset) 0 (1 / 4) (2 / 10))).add
    (Note.make (A4 * offset) (1 / 2) (1 / 4) (24 / 100))).add
    (Note.make (G4 * offset) 1 (1 / 4) (28 / 100))).add
    (Note.make (F4 * offset) (15 / 10) (1 / 4) (32 / 100))).add
    (Note.make (E4 * offset) 2 (1 / 2) (36 / 100))).add
    (Note.make (C4 * offset) 3 (1 / 2) (24 / 100))

/-- Source `MyApp::sequenceFJ` of `050_CompressorFJ.cpp`; every phrase is a new object. -/
def sequenceFJ_050 (offset : α) : Sequence α :=
  ((((((((Sequence.new TimeSignature.default).addSequenceDefault (sequenceFJPhrase1 offset) 0
    ).addSequence (sequenceFJPhrase1 offset) 4 (2 / 10)
    ).addSequence (sequenceFJPhrase2_050 offset) 8 (5 / 10)
    ).addSequence (sequenceFJPhrase2_050 offset) 12 1
    ).addSequence (sequenceFJPhrase3_050 offset) 16 1
    ).addSequence (sequenceFJPhrase3_050 offset) 20 (5 / 10)
    ).addSequence (sequenceFJPhrase4 offset) 24 1
    ).addSequence (sequenceFJPhrase4 offset) 28 (5 / 10)

/-- The `(frequency, beat time, duration)` of a note. -/
def Note.triple (n : Note α) : α × α × α := (n.freq, n.time, n.duration)

/-- The `(frequency, time, duration)` arguments of a call of `playNote`. -/
def PlayNoteCall.triple (c : PlayNoteCall α) : α × α × α := (c.freq, c.time, c.duration)

end Sequencer

namespace Compressor

variable {α : Type} [LinearOrderedField α]

/-! ## Lemmas on the gain loop -/

theorem applyGainLoop_cons_lt (g : List α) (f : Frame α) (rest : List (Frame α)) (i : Nat)
    (st : CompressorStats α) (h : i < BLOCK_SIZE) :
    applyGainLoop g (f :: rest) i st =
      ((⟨f.out0 * g.getD i 0, f.out1 * g.getD i 0⟩ : Frame α)
          :: (applyGainLoop g rest (i + 1) (statsAfter g f i st)).1,
        (applyGainLoop g rest (i + 1) (statsAfter g f i st)).2) := by
  simp [applyGainLoop, statsAfter, h]

theorem applyGainLoop_cons_ge (g : List α) (f : Frame α) (rest : List (Frame α)) (i : Nat)
    (st : CompressorStats α) (h : ¬ i < BLOCK_SIZE) :
    applyGainLoop g (f :: rest) i st = (f :: rest, st) := by
  simp [applyGainLoop, h]

theorem applyGainLoop_length (g : List α) (fs : List (Frame α)) (i : Nat)
    (st : CompressorStats α) : (applyGainLoop g fs i st).1.length = fs.length := by
  induction fs generalizing i st with
  | nil => simp [applyGainLoop]
  | cons f rest ih =>
    by_cases h : i < BLOCK_SIZE
    · rw [applyGainLoop_cons_lt g f rest i st h]; simp [ih]
    · rw [applyGainLoop_cons_ge g f rest i st h]

theorem applyGainLoop_get (g : List α) (fs : List (Frame α)) (i : Nat)
    (st : CompressorStats α) (j : Nat) :
    (applyGainLoop g fs i st).1[j]? =
      (fs[j]?).map (fun f =>
        if i + j < BLOCK_SIZE then
          (⟨f.out0 * g.getD (i + j) 0, f.out1 * g.getD (i + j) 0⟩ : Frame α)
        else f) := by
  induction fs generalizing i st j with
  | nil => simp [applyGainLoop]
  | cons f rest ih =>
    by_cases h : i < BLOCK_SIZE
    · rw [applyGainLoop_cons_lt g f rest i st h]
      cases j with
      | zero => simp [h]
      | succ k =>
        simp only [List.getElem?_cons_succ]
        rw [ih]
        have e : i + 1 + k = i + (k + 1) := by omega
        rw [e]
    · rw [applyGainLoop_cons_ge g f rest i st h]
      have h2 : ¬ (i + j < BLOCK_SIZE) := by omega
      simp only [h2, if_false]
      cases (f :: rest)[j]? <;> rfl

/-! ### `pre_peak` -/

theorem applyGainLoop_pre_ge (g : List α) (fs : List (Frame α)) (i : Nat)
    (st : CompressorStats α) : st.pre_peak ≤ (applyGainLoop g fs i st).2.pre_peak := by
  induction fs generalizing i st with
  | nil => simp [applyGainLoop]
  | cons f rest ih =>
    by_cases h : i < BLOCK_SIZE
    · rw [applyGainLoop_cons_lt g f rest i st h]
      refine le_trans ?_ (ih (i + 1) (statsAfter g f i st))
      exact le_trans (le_max_left _ _) (le_max_left _ _)
    · rw [applyGainLoop_cons_ge g f rest i st h]

theorem applyGainLoop_pre_bound (g : List α) (fs : List (Frame α)) (i : Nat)
    (st : CompressorStats α) (j : Nat) (f : Frame α) (hf : fs[j]? = some f)
    (hj : i + j < BLOCK_SIZE) :
    max (abs f.out0) (abs f.out1) ≤ (applyGainLoop g fs i st).2.pre_peak := by
  induction fs generalizing i st j with
  | nil => simp at hf
  | cons f0 rest ih =>
    have hi : i < BLOCK_SIZE := by omega
    rw [applyGainLoop_cons_lt g f0 rest i st hi]
    cases j with
    | zero =>
      simp only [List.getElem?_cons_zero, Option.some.injEq] at hf
      subst hf
      refine le_trans ?_ (applyGainLoop_pre_ge _ _ _ _)
      exact max_le (le_trans (le_max_right _ _) (le_max_left _ _)) (le_max_right _ _)
    | succ k =>
      simp only [List.getElem?_cons_succ] at hf
      exact ih _ _ _ hf (by omega)

theorem applyGainLoop_pre_attained (g : List α) (fs : List (Frame α)) (i : Nat)
    (st : CompressorStats α) :
    (applyGainLoop g fs i st).2.pre_peak = st.pre_peak ∨
      ∃ j f, fs[j]? = some f ∧ i + j < BLOCK_SIZE ∧
        (applyGainLoop g fs i st).2.pre_peak = max (abs f.out0) (abs f.out1) := by
  induction fs generalizing i st with
  | nil => simp [applyGainLoop]
  | cons f0 rest ih =>
    by_cases hi : i < BLOCK_SIZE
    · rw [applyGainLoop_cons_lt g f0 rest i st hi]
      rcases ih (i + 1) (statsAfter g f0 i st) with h | ⟨j, f, hf, hj, h⟩
      · have e : (statsAfter g f0 i st).pre_peak
            = max st.pre_peak (max (abs f0.out0) (abs f0.out1)) := by
          simp [statsAfter, max_assoc]
        rcases max_choice st.pre_peak (max (abs f0.out0) (abs f0.out1)) with c | c
        · left; rw [h, e, c]
        · right
          exact ⟨0, f0, by simp, by omega, by rw [h, e, c]⟩
      · right
        exact ⟨j + 1, f, by simpa using hf, by omega, h⟩
    · rw [applyGainLoop_cons_ge g f0 rest i st hi]
      exact Or.inl rfl

/-! ### `post_peak` -/

theorem applyGainLoop_post_ge (g : List α) (fs : List (Frame α)) (i : Nat)
    (st : CompressorStats α) : st.post_peak ≤ (applyGainLoop g fs i st).2.post_peak := by
  induction fs generalizing i st with
  | nil => simp [applyGainLoop]
  | cons f rest ih =>
    by_cases h : i < BLOCK_SIZE
    · rw [applyGainLoop_cons_lt g f rest i st h]
      refine le_trans ?_ (ih (i + 1) (statsAfter g f i st))
      exact le_trans (le_max_left _ _) (le_max_left _ _)
    · rw [applyGainLoop_cons_ge g f rest i st h]

theorem applyGainLoop_post_bound (g : List α) (fs : List (Frame α)) (i : Nat)
    (st : CompressorStats α) (j : Nat) (f : Frame α) (hf : fs[j]? = some f)
    (hj : i + j < BLOCK_SIZE) :
    max (abs (f.out0 * g.getD (i + j) 0)) (abs (f.out1 * g.getD (i + j) 0))
      ≤ (applyGainLoop g fs i st).2.post_peak := by
  induction fs generalizing i st j with
  | nil => simp at hf
  | cons f0 rest ih =>
    have hi : i < BLOCK_SIZE := by omega
    rw [applyGainLoop_cons_lt g f0 rest i st hi]
    cases j with
    | zero =>
      simp only [List.getElem?_cons_zero, Option.some.injEq] at hf
      subst hf
      refine le_trans ?_ (applyGainLoop_post_ge _ _ _ _)
      exact max_le (le_trans (le_max_right _ _) (le_max_left _ _)) (le_max_right _ _)
    | succ k =>
      simp only [List.getElem?_cons_succ] at hf
      have e : i + (k + 1) = i + 1 + k := by omega
      rw [e]
      exact ih _ _ _ hf (by omega)

theorem applyGainLoop_post_attained (g : List α) (fs : List (Frame α)) (i : Nat)
    (st : CompressorStats α) :
    (applyGainLoop g fs i st).2.post_peak = st.post_peak ∨
      ∃ j f, fs[j]? = some f ∧ i + j < BLOCK_SIZE ∧
        (applyGainLoop g fs i st).2.post_peak
          = max (abs (f.out0 * g.getD (i + j) 0)) (abs (f.out1 * g.getD (i + j) 0)) := by
  induction fs generalizing i st with
  | nil => simp [applyGainLoop]
  | cons f0 rest ih =>
    by_cases hi : i < BLOCK_SIZE
    · rw [applyGainLoop_cons_lt g f0 rest i st hi]
      rcases ih (i + 1) (statsAfter g f0 i st) with h | ⟨j, f, hf, hj, h⟩
      · have e : (statsAfter g f0 i st).post_peak
            = max st.post_peak
                (max (abs (f0.out0 * g.getD i 0)) (abs (f0.out1 * g.getD i 0))) := by
          simp [statsAfter, max_assoc]
        rcases max_choice st.post_peak
            (max (abs (f0.out0 * g.getD i 0)) (abs (f0.out1 * g.getD i 0))) with c | c
        · left; rw [h, e, c]
        · right
          exact ⟨0, f0, by simp, by omega, by rw [h, e, c]; rfl⟩
      · right
        have e : i + (j + 1) = i + 1 + j := by omega
        exact ⟨j + 1, f, by simpa using hf, by omega, by rw [e]; exact h⟩
    · rw [applyGainLoop_cons_ge g f0 rest i st hi]
      exact Or.inl rfl

/-! ### `duck` -/

theorem applyGainLoop_duck_le (g : List α) (fs : List (Frame α)) (i : Nat)
    (st : CompressorStats α) : (applyGainLoop g fs i st).2.duck ≤ st.duck := by
  induction fs generalizing i st with
  | nil => simp [applyGainLoop]
  | cons f rest ih =>
    by_cases h : i < BLOCK_SIZE
    · rw [applyGainLoop_cons_lt g f rest i st h]
      exact le_trans (ih (i + 1) (statsAfter g f i st)) (min_le_left _ _)
    · rw [applyGainLoop_cons_ge g f rest i st h]

theorem applyGainLoop_duck_bound (g : List α) (fs : List (Frame α)) (i : Nat)
    (st : CompressorStats α) (j : Nat) (hf : j < fs.length) (hj : i + j < BLOCK_SIZE) :
    (applyGainLoop g fs i st).2.duck ≤ g.getD (i + j) 0 := by
  induction fs generalizing i st j with
  | nil => simp at hf
  | cons f0 rest ih =>
    have hi : i < BLOCK_SIZE := by omega
    rw [applyGainLoop_cons_lt g f0 rest i st hi]
    cases j with
    | zero =>
      exact le_trans (applyGainLoop_duck_le _ _ _ _) (min_le_right _ _)
    | succ k =>
      simp only [List.length_cons, Nat.add_lt_add_iff_right] at hf
      have e : i + (k + 1) = i + 1 + k := by omega
      rw [e]
      exact ih _ _ _ hf (by omega)

theorem applyGainLoop_duck_attained (g : List α) (fs : List (Frame α)) (i : Nat)
    (st : CompressorStats α) :
    (applyGainLoop g fs i st).2.duck = st.duck ∨
      ∃ j, j < fs.length ∧ i + j < BLOCK_SIZE ∧
        (applyGainLoop g fs i st).2.duck = g.getD (i + j) 0 := by
  induction fs generalizing i st with
  | nil => simp [applyGainLoop]
  | cons f0 rest ih =>
    by_cases hi : i < BLOCK_SIZE
    · rw [applyGainLoop_cons_lt g f0 rest i st hi]
      rcases ih (i + 1) (statsAfter g f0 i st) with h | ⟨j, hf, hj, h⟩
      · have e : (statsAfter g f0 i st).duck = min st.duck (g.getD i 0) := rfl
        rcases min_choice st.duck (g.getD i 0) with c | c
        · left; rw [h, e, c]
        · right
          exact ⟨0, by simp, by omega, by rw [h, e, c]; rfl⟩
      · right
        have e : i + (j + 1) = i + 1 + j := by omega
        exact ⟨j + 1, by simpa using hf, by omega, by rw [e]; exact h⟩
    · rw [applyGainLoop_cons_ge g f0 rest i st hi]
      exact Or.inl rfl

/-! ## Lemmas on the sidechain loop -/

theorem sidechainLoop_length (fs : List (Frame α)) (i : Nat) (buf : List α) :
    (sidechainLoop fs i buf).length = buf.length := by
  induction fs generalizing i buf with
  | nil => simp [sidechainLoop]
  | cons f rest ih =>
    unfold sidechainLoop
    split
    · rw [ih]; simp
    · rfl

theorem sidechainLoop_get_lt (fs : List (Frame α)) (i : Nat) (buf : List α) (k : Nat)
    (hk : k < i) : (sidechainLoop fs i buf)[k]? = buf[k]? := by
  induction fs generalizing i buf with
  | nil => simp [sidechainLoop]
  | cons f rest ih =>
    unfold sidechainLoop
    split
    · rw [ih (i + 1) _ (by omega)]
      rw [List.getElem?_set_ne (by omega)]
    · rfl

theorem sidechainLoop_get (fs : List (Frame α)) (i : Nat) (buf : List α) (j : Nat)
    (f : Frame α) (hf : fs[j]? = some f) (hj : i + j < BLOCK_SIZE) (hb : i + j < buf.length) :
    (sidechainLoop fs i buf)[i + j]? = some (max (abs f.out0) (abs f.out1)) := by
  induction fs generalizing i buf j with
  | nil => simp at hf
  | cons f0 rest ih =>
    have hi : i < BLOCK_SIZE := by omega
    unfold sidechainLoop
    simp only [hi, if_true]
    cases j with
    | zero =>
      simp only [List.getElem?_cons_zero, Option.some.injEq] at hf
      subst hf
      have hb0 : i < buf.length := by omega
      rw [Nat.add_zero, sidechainLoop_get_lt _ _ _ _ (by omega)]
      simp [List.getElem?_set, hb0]
    | succ k =>
      simp only [List.getElem?_cons_succ] at hf
      have e : i + (k + 1) = i + 1 + k := by omega
      rw [e]
      exact ih _ _ _ hf (by omega) (by simpa using (by omega : i + 1 + k < buf.length))

/-! ## The gain stage as a whole -/

theorem getD_of_getElem (g : List α) (i : Nat) (x : α) (h : g[i]? = some x) :
    g.getD i 0 = x := by
  simp [List.getD_eq_getElem?_getD, h]

theorem abs_mul_gain_le (a x : α) (h0 : 0 < x) (h1 : x ≤ 1) : abs (a * x) ≤ abs a := by
  rw [abs_mul, abs_of_pos h0]
  exact mul_le_of_le_one_right (abs_nonneg a) h1

theorem applyGain_sample_le (g : List α) (frames : AudioIOData α)
    (hg : ∀ i, i < frames.length → i < BLOCK_SIZE → ∃ x, g[i]? = some x ∧ 0 < x ∧ x ≤ 1)
    (i : Nat) (f f' : Frame α) (hf : frames[i]? = some f)
    (hf' : (applyGain g frames).1[i]? = some f') :
    abs f'.out0 ≤ abs f.out0 ∧ abs f'.out1 ≤ abs f.out1 := by
  unfold applyGain at hf'
  rw [applyGainLoop_get, hf] at hf'
  simp only [Option.map_some', Nat.zero_add, Option.some.injEq] at hf'
  have hlen : i < frames.length := by
    rcases Nat.lt_or_ge i frames.length with h | h
    · exact h
    · rw [List.getElem?_eq_none h] at hf; cases hf
  by_cases hi : i < BLOCK_SIZE
  · obtain ⟨x, hx, h0, h1⟩ := hg i hlen hi
    rw [if_pos hi, getD_of_getElem g i x hx] at hf'
    subst hf'
    exact ⟨abs_mul_gain_le _ _ h0 h1, abs_mul_gain_le _ _ h0 h1⟩
  · rw [if_neg hi] at hf'
    subst hf'
    exact ⟨le_refl _, le_refl _⟩

theorem applyGain_post_le_pre (g : List α) (frames : AudioIOData α)
    (hg : ∀ i, i < frames.length → i < BLOCK_SIZE → ∃ x, g[i]? = some x ∧ 0 < x ∧ x ≤ 1) :
    (applyGain g frames).2.post_peak ≤ (applyGain g frames).2.pre_peak := by
  unfold applyGain
  rcases applyGainLoop_post_attained g frames 0 ⟨0, 1, 0⟩ with h | ⟨j, f, hf, hj, h⟩
  · rw [h]
    exact applyGainLoop_pre_ge g frames 0 ⟨0, 1, 0⟩
  · rw [h]
    have hlen : j < frames.length := by
      rcases Nat.lt_or_ge j frames.length with h | h
      · exact h
      · rw [List.getElem?_eq_none h] at hf; cases hf
    rw [Nat.zero_add] at hj
    obtain ⟨x, hx, h0, h1⟩ := hg j hlen hj
    rw [Nat.zero_add, getD_of_getElem g j x hx]
    refine le_trans ?_ (applyGainLoop_pre_bound g frames 0 ⟨0, 1, 0⟩ j f hf (by omega))
    exact max_le_max (abs_mul_gain_le _ _ h0 h1) (abs_mul_gain_le _ _ h0 h1)

theorem applyGain_pre_attained (g : List α) (frames : AudioIOData α) (hne : frames ≠ []) :
    ∃ (i : Nat) (f : Frame α), frames[i]? = some f ∧ i < BLOCK_SIZE ∧
      (applyGain g frames).2.pre_peak = max (abs f.out0) (abs f.out1) := by
  unfold applyGain
  rcases applyGainLoop_pre_attained g frames 0 ⟨0, 1, 0⟩ with h | ⟨j, f, hf, hj, h⟩
  · cases frames with
    | nil => exact absurd rfl hne
    | cons f0 rest =>
      refine ⟨0, f0, by simp, by decide, ?_⟩
      have hb := applyGainLoop_pre_bound g (f0 :: rest) 0 ⟨0, 1, 0⟩ 0 f0 (by simp) (by decide)
      rw [h] at hb ⊢
      exact le_antisymm (le_trans (abs_nonneg _) (le_max_left _ _)) hb
  · exact ⟨j, f, hf, by omega, h⟩

theorem applyGain_post_attained (g : List α) (frames : AudioIOData α) (hne : frames ≠ []) :
    ∃ (i : Nat) (f : Frame α), frames[i]? = some f ∧ i < BLOCK_SIZE ∧
      (applyGain g frames).2.post_peak
        = max (abs (f.out0 * g.getD i 0)) (abs (f.out1 * g.getD i 0)) := by
  unfold applyGain
  rcases applyGainLoop_post_attained g frames 0 ⟨0, 1, 0⟩ with h | ⟨j, f, hf, hj, h⟩
  · cases frames with
    | nil => exact absurd rfl hne
    | cons f0 rest =>
      refine ⟨0, f0, by simp, by decide, ?_⟩
      have hb := applyGainLoop_post_bound g (f0 :: rest) 0 ⟨0, 1, 0⟩ 0 f0 (by simp) (by decide)
      rw [h] at hb ⊢
      exact le_antisymm (le_trans (abs_nonneg _) (le_max_left _ _)) hb
  · rw [Nat.zero_add] at hj h
    exact ⟨j, f, hf, hj, h⟩

theorem applyGain_out_frame (g : List α) (frames : AudioIOData α) (i : Nat) (hi : i < BLOCK_SIZE) :
    (applyGain g frames).1[i]? =
      (frames[i]?).map (fun f => (⟨f.out0 * g.getD i 0, f.out1 * g.getD i 0⟩ : Frame α)) := by
  unfold applyGain
  rw [applyGainLoop_get]
  simp only [Nat.zero_add, if_pos hi]

/-! ## Lemmas on the statistics -/

theorem approxEqual_iff (l r : α) : approxEqual l r = true ↔ abs (l - r) < 1 / 10000 := by
  simp [approxEqual]

theorem operator_eq_iff (l r : CompressorStats α) :
    l.operator_eq r = true ↔
      abs (l.pre_peak - r.pre_peak) < 1 / 10000 ∧ abs (l.duck - r.duck) < 1 / 10000
        ∧ abs (l.post_peak - r.post_peak) < 1 / 10000 := by
  simp [CompressorStats.operator_eq, approxEqual_iff, and_assoc]

theorem operator_eq_false_iff (l r : CompressorStats α) :
    l.operator_eq r = false ↔ fieldDiffers l r := by
  rw [← Bool.not_eq_true, operator_eq_iff]
  unfold fieldDiffers
  simp only [not_and_or, not_lt]

theorem operator_eq_self (s : CompressorStats α) : s.operator_eq s = true := by
  rw [operator_eq_iff]
  simp

theorem blockStep_of_eq (prev s : CompressorStats α) (h : s.operator_eq prev = true) :
    blockStep true prev s = ([], prev) := by
  simp [blockStep, updateStats, h]

theorem blockStep_of_ne (prev s : CompressorStats α) (h : s.operator_eq prev = false) :
    blockStep true prev s =
      ([[("pre_peak:  ", s.pre_peak), ("compress:  ", s.duck), ("post_peak: ", s.post_peak)]],
        s) := by
  simp [blockStep, updateStats, h]

theorem blockStep_emits_iff (prev s : CompressorStats α) :
    (blockStep true prev s).1 ≠ [] ↔ s.operator_eq prev = false := by
  cases h : s.operator_eq prev
  · simp [blockStep_of_ne prev s h]
  · simp [blockStep_of_eq prev s h]

theorem blockStep_length (prev s : CompressorStats α) :
    (blockStep true prev s).1.length = if s.operator_eq prev then 0 else 1 := by
  cases h : s.operator_eq prev
  · simp [blockStep_of_ne prev s h]
  · simp [blockStep_of_eq prev s h]

theorem blockStep_debug_off (prev s : CompressorStats α) :
    blockStep false prev s = ([], prev) := by
  simp [blockStep, updateStats]

/-- After a step with `debug` on, the block's stats are approximately equal to
`previousStats`. -/
theorem blockStep_eq_after (prev s : CompressorStats α) :
    s.operator_eq (blockStep true prev s).2 = true := by
  cases h : s.operator_eq prev
  · rw [blockStep_of_ne prev s h]; exact operator_eq_self s
  · rw [blockStep_of_eq prev s h]; exact h

/-! ## Lemmas on consecutive blocks -/

theorem updateStatsSeq_length (debug : Bool) (prev : CompressorStats α)
    (blocks : List (CompressorStats α)) :
    (updateStatsSeq debug prev blocks).length = blocks.length := by
  induction blocks generalizing prev with
  | nil => rfl
  | cons s rest ih => simp [updateStatsSeq, ih]

/-- Block `k + 1` is stepped from the `previousStats` that block `k` left. -/
theorem updateStatsSeq_succ (debug : Bool) (prev : CompressorStats α)
    (blocks : List (CompressorStats α)) (k : Nat) (o : List (Line α) × CompressorStats α)
    (s : CompressorStats α) (ho : (updateStatsSeq debug prev blocks)[k]? = some o)
    (hs : blocks[k + 1]? = some s) :
    (updateStatsSeq debug prev blocks)[k + 1]? = some (blockStep debug o.2 s) := by
  induction blocks generalizing prev k with
  | nil => simp at hs
  | cons s0 rest ih =>
    cases k with
    | zero =>
      simp only [updateStatsSeq, List.getElem?_cons_zero, Option.some.injEq] at ho
      subst ho
      simp only [List.getElem?_cons_succ] at hs
      cases rest with
      | nil => simp at hs
      | cons s1 rest1 =>
        simp only [List.getElem?_cons_zero, Option.some.injEq] at hs
        subst hs
        simp [updateStatsSeq]
    | succ j =>
      simp only [updateStatsSeq, List.getElem?_cons_succ] at ho hs ⊢
      exact ih _ j ho hs

/-- While no block has printed, every block is compared with the initial `previousStats`. -/
theorem updateStatsSeq_quiet (prev : CompressorStats α) (blocks : List (CompressorStats α))
    (k : Nat)
    (hq : ∀ (j : Nat) (o : List (Line α) × CompressorStats α), j < k →
      (updateStatsSeq true prev blocks)[j]? = some o → o.1 = []) :
    (updateStatsSeq true prev blocks)[k]? = (blocks[k]?).map (blockStep true prev) := by
  induction blocks generalizing k with
  | nil => simp [updateStatsSeq]
  | cons s0 rest ih =>
    cases k with
    | zero => simp [updateStatsSeq]
    | succ j =>
      have h0 : (blockStep true prev s0).1 = [] := hq 0 _ (by omega) (by simp [updateStatsSeq])
      have hp : (blockStep true prev s0).2 = prev := by
        cases hc : s0.operator_eq prev
        · rw [blockStep_of_ne prev s0 hc] at h0
          simp at h0
        · rw [blockStep_of_eq prev s0 hc]
      simp only [updateStatsSeq, List.getElem?_cons_succ, hp]
      apply ih
      intro l o hl ho
      apply hq (l + 1) o (by omega)
      simp only [updateStatsSeq, List.getElem?_cons_succ, hp]
      exact ho

/-- After block `j` has printed and while no later block has, every block is compared with
the stats of block `j`. -/
theorem updateStatsSeq_after_print (prev : CompressorStats α)
    (blocks : List (CompressorStats α)) (j k : Nat) (sj : CompressorStats α)
    (oj : List (Line α) × CompressorStats α) (hjk : j < k) (hsj : blocks[j]? = some sj)
    (hoj : (updateStatsSeq true prev blocks)[j]? = some oj) (hp : oj.1 ≠ [])
    (hq : ∀ (l : Nat) (o : List (Line α) × CompressorStats α), j < l → l < k →
      (updateStatsSeq true prev blocks)[l]? = some o → o.1 = []) :
    (updateStatsSeq true prev blocks)[k]? = (blocks[k]?).map (blockStep true sj) := by
  induction blocks generalizing prev j k with
  | nil => simp at hsj
  | cons s0 rest ih =>
    cases k with
    | zero => omega
    | succ k1 =>
      cases j with
      | zero =>
        simp only [List.getElem?_cons_zero, Option.some.injEq] at hsj
        simp only [updateStatsSeq, List.getElem?_cons_zero, Option.some.injEq] at hoj
        subst hsj hoj
        have h2 : (blockStep true prev s0).2 = s0 := by
          rw [blockStep_emits_iff] at hp
          rw [blockStep_of_ne prev s0 hp]
        simp only [updateStatsSeq, List.getElem?_cons_succ, h2]
        apply updateStatsSeq_quiet
        intro l o hl ho
        apply hq (l + 1) o (by omega) (by omega)
        simp only [updateStatsSeq, List.getElem?_cons_succ, h2]
        exact ho
      | succ j1 =>
        simp only [updateStatsSeq, List.getElem?_cons_succ] at hsj hoj ⊢
        apply ih _ j1 k1 (by omega) hsj hoj
        intro l o hl1 hl2 ho
        apply hq (l + 1) o (by omega) (by omega)
        simp only [updateStatsSeq, List.getElem?_cons_succ]
        exact ho

/-- Every entry of the run is a step of its block from some `previousStats`. -/
theorem updateStatsSeq_get (debug : Bool) (prev : CompressorStats α)
    (blocks : List (CompressorStats α)) (k : Nat) (s : CompressorStats α)
    (hs : blocks[k]? = some s) :
    ∃ q : CompressorStats α, (updateStatsSeq debug prev blocks)[k]? = some (blockStep debug q s) := by
  induction blocks generalizing prev k with
  | nil => simp at hs
  | cons s0 rest ih =>
    cases k with
    | zero =>
      simp only [List.getElem?_cons_zero, Option.some.injEq] at hs
      subst hs
      exact ⟨prev, by simp [updateStatsSeq]⟩
    | succ j =>
      simp only [List.getElem?_cons_succ] at hs
      obtain ⟨q, hq⟩ := ih (blockStep debug prev s0).2 j hs
      exact ⟨q, by simpa [updateStatsSeq] using hq⟩

/-- What `operator()` of `050_CompressorFJ.cpp` prints and leaves in `previousStats` is the
UpdateStats step on the locals of its gain loop. -/
theorem operator_call_blockStep {G L : Type} (m : Libm α) (lib : SimpleCompressor α G L)
    (block_size : Nat) (p : CompressorPlugin α G L) (frames : AudioIOData α) :
    ((p.operator_call m lib block_size frames).cout,
        (p.operator_call m lib block_size frames).plugin.previousStats)
      = blockStep p.debug p.previousStats (p.operator_call m lib block_size frames).stats ∧
    (p.operator_call m lib block_size frames).plugin.debug = p.debug :=
  ⟨rfl, rfl⟩

/-- The diagnostics of consecutive calls of `operator()` are the run of UpdateStats steps
over the stats of the blocks. -/
theorem processBlocks_updateStatsSeq {G L : Type} (m : Libm α) (lib : SimpleCompressor α G L)
    (block_size : Nat) (p : CompressorPlugin α G L) (blocks : List (AudioIOData α)) :
    (processBlocks m lib block_size p blocks).map (fun r => (r.cout, r.plugin.previousStats))
      = updateStatsSeq p.debug p.previousStats
          ((processBlocks m lib block_size p blocks).map (fun r => r.stats)) := by
  induction blocks generalizing p with
  | nil => rfl
  | cons b rest ih =>
    simp only [processBlocks, List.map_cons, updateStatsSeq]
    rw [ih]
    rfl

/-- What `operator()` of `compression.cpp` prints is `printStats` of the locals of its
gain loop. -/
theorem operator_call_compression_cout {G L : Type} (m : Libm α)
    (lib : SimpleCompressor α G L) (block_size : Nat) (p : CompressorPlugin α G L)
    (frames : AudioIOData α) :
    (p.operator_call_compression m lib block_size frames).cout
      = printStats p.debug (p.operator_call_compression m lib block_size frames).stats.pre_peak
          (p.operator_call_compression m lib block_size frames).stats.duck
          (p.operator_call_compression m lib block_size frames).stats.post_peak :=
  rfl

/-! ## Lemmas on the gain routing and on silent blocks -/

theorem lookaheadToLinear_length (m : Libm α) (block_size : Nat) (look_buf gain_buf : List α) :
    (lookaheadToLinear m block_size look_buf gain_buf).length = gain_buf.length := by
  unfold lookaheadToLinear
  induction block_size with
  | zero => simp
  | succ n ih =>
    rw [List.range_succ, List.foldl_append]
    simp only [List.foldl_cons, List.foldl_nil, List.length_set]
    exact ih

theorem lookaheadToLinear_get (m : Libm α) (block_size : Nat) (look_buf gain_buf : List α)
    (i : Nat) :
    (lookaheadToLinear m block_size look_buf gain_buf)[i]? =
      if i < block_size ∧ i < gain_buf.length then
        some (decibelsToLinear m (look_buf.getD i 0))
      else gain_buf[i]? := by
  induction block_size with
  | zero => simp [lookaheadToLinear]
  | succ n ih =>
    have hlen := lookaheadToLinear_length m n look_buf gain_buf
    unfold lookaheadToLinear at ih hlen ⊢
    rw [List.range_succ, List.foldl_append]
    simp only [List.foldl_cons, List.foldl_nil, List.getElem?_set, hlen]
    by_cases h1 : n = i
    · subst h1
      by_cases h2 : n < gain_buf.length
      · simp [h2]
      · rw [ih]
        have h4 : gain_buf.length ≤ n := by omega
        simp [h2, h4]
    · rw [if_neg h1, ih]
      by_cases h3 : i < gain_buf.length
      · have e : (i < n ↔ i < n + 1) := by omega
        simp [h3, e]
      · simp [h3]

theorem applyGainLoop_zero (g : List α) (fs : List (Frame α)) (i : Nat)
    (st : CompressorStats α) (hz : ∀ f ∈ fs, f = (⟨0, 0⟩ : Frame α))
    (hpre : st.pre_peak = 0) (hpost : st.post_peak = 0) :
    (applyGainLoop g fs i st).1 = fs ∧ (applyGainLoop g fs i st).2.pre_peak = 0
      ∧ (applyGainLoop g fs i st).2.post_peak = 0 := by
  induction fs generalizing i st with
  | nil => simp [applyGainLoop, hpre, hpost]
  | cons f rest ih =>
    have hf : f = ⟨0, 0⟩ := hz f (by simp)
    have hrest : ∀ f ∈ rest, f = (⟨0, 0⟩ : Frame α) := fun a ha => hz a (by simp [ha])
    by_cases h : i < BLOCK_SIZE
    · rw [applyGainLoop_cons_lt g f rest i st h]
      have ih2 := ih (i + 1) (statsAfter g f i st) hrest
        (by simp [statsAfter, hpre, hf]) (by simp [statsAfter, hpost, hf])
      refine ⟨?_, ih2.2.1, ih2.2.2⟩
      simp only [ih2.1]
      subst hf
      simp
    · rw [applyGainLoop_cons_ge g f rest i st h]
      exact ⟨rfl, hpre, hpost⟩

/-! ## Lemmas on the static curve -/

theorem staticReduction_below (T K R x : α) (h : x < T - K / 2) :
    staticReduction T K R x = 0 := by
  simp [staticReduction, h]

theorem staticReduction_inside (T K R x : α) (h1 : T - K / 2 ≤ x) (h2 : x ≤ T + K / 2) :
    staticReduction T K R x = (1 - 1 / R) * (x - T + K / 2) ^ 2 / (2 * K) := by
  simp [staticReduction, not_lt.mpr h1, h2]

theorem staticReduction_above (T K R x : α) (hK : 0 ≤ K) (h : T + K / 2 < x) :
    staticReduction T K R x = (x - T) * (1 - 1 / R) := by
  have h1 : ¬ (x < T - K / 2) := by
    apply not_lt.mpr
    have : T - K / 2 ≤ T + K / 2 := by linarith
    linarith
  simp [staticReduction, h1, not_le.mpr h]

theorem staticSlope_below (T K R x : α) (hK : 0 ≤ K) (h : x ≤ T - K / 2) :
    staticSlope T K R x = 0 := by
  have h1 : max (x - (T - K / 2)) 0 = 0 := max_eq_right (by linarith)
  simp [staticSlope, h1, min_eq_left hK]

theorem staticSlope_inside (T K R x : α) (h1 : T - K / 2 ≤ x) (h2 : x ≤ T + K / 2) :
    staticSlope T K R x = (1 - 1 / R) * (x - (T - K / 2)) / K := by
  have e1 : max (x - (T - K / 2)) 0 = x - (T - K / 2) := max_eq_left (by linarith)
  have e2 : min (x - (T - K / 2)) K = x - (T - K / 2) := min_eq_left (by linarith)
  simp [staticSlope, e1, e2]

theorem staticSlope_above (T K R x : α) (hK : 0 < K) (h : T + K / 2 ≤ x) :
    staticSlope T K R x = 1 - 1 / R := by
  have e1 : max (x - (T - K / 2)) 0 = x - (T - K / 2) := max_eq_left (by linarith)
  have e2 : min (x - (T - K / 2)) K = K := min_eq_right (by linarith)
  rw [staticSlope, e1, e2]
  field_simp

theorem knee_quadratic_hasDerivAt (T K R x : ℝ) (hK : 0 < K) :
    HasDerivAt (fun y : ℝ => (1 - 1 / R) * (y - T + K / 2) ^ 2 / (2 * K))
      ((1 - 1 / R) * (x - (T - K / 2)) / K) x := by
  have h := ((((hasDerivAt_id x).sub_const T).add_const (K / 2)).pow 2).const_mul (1 - 1 / R)
  have h2 := h.div_const (2 * K)
  convert h2 using 1
  have hK2 : K ≠ 0 := hK.ne'
  have e : (2 : ℕ) - 1 = 1 := rfl
  simp only [id, e, pow_one, Nat.cast_ofNat, mul_one]
  rw [div_eq_div_iff hK2 (by positivity)]
  ring

theorem knee_linear_hasDerivAt (T R x : ℝ) :
    HasDerivAt (fun y : ℝ => (y - T) * (1 - 1 / R)) (1 - 1 / R) x := by
  have h := ((hasDerivAt_id x).sub_const T).mul_const (1 - 1 / R)
  simpa using h

theorem staticReduction_hasDerivAt (T K R : ℝ) (hK : 0 < K) (x : ℝ) :
    HasDerivAt (staticReduction T K R) (staticSlope T K R x) x := by
  have hab : T - K / 2 < T + K / 2 := by linarith
  rcases lt_trichotomy x (T - K / 2) with h | h | h
  · rw [staticSlope_below T K R x hK.le h.le]
    refine (hasDerivAt_const x (0 : ℝ)).congr_of_eventuallyEq ?_
    exact Filter.eventuallyEq_of_mem (Iio_mem_nhds h)
      (fun y hy => staticReduction_below T K R y hy)
  · subst h
    rw [staticSlope_below T K R _ hK.le le_rfl]
    have hl : HasDerivWithinAt (staticReduction T K R) 0 (Set.Iic (T - K / 2)) (T - K / 2) := by
      refine (hasDerivWithinAt_const (T - K / 2) (Set.Iic (T - K / 2)) (0 : ℝ)).congr ?_ ?_
      · intro y hy
        rcases lt_or_eq_of_le (Set.mem_Iic.mp hy) with h1 | h1
        · exact staticReduction_below T K R y h1
        · subst h1
          rw [staticReduction_inside T K R _ le_rfl hab.le]
          simp
      · rw [staticReduction_inside T K R _ le_rfl hab.le]
        simp
    have hr : HasDerivWithinAt (staticReduction T K R) 0 (Set.Ici (T - K / 2)) (T - K / 2) := by
      have hq : HasDerivWithinAt (fun y : ℝ => (1 - 1 / R) * (y - T + K / 2) ^ 2 / (2 * K))
          ((1 - 1 / R) * (T - K / 2 - (T - K / 2)) / K) (Set.Ici (T - K / 2)) (T - K / 2) :=
        (knee_quadratic_hasDerivAt T K R (T - K / 2) hK).hasDerivWithinAt
      rw [sub_self, mul_zero, zero_div] at hq
      refine hq.congr_of_eventuallyEq ?_ ?_
      · refine Filter.eventuallyEq_of_mem
          (inter_mem_nhdsWithin (Set.Ici (T - K / 2)) (Iio_mem_nhds hab)) ?_
        intro y hy
        exact staticReduction_inside T K R y hy.1 (le_of_lt hy.2)
      · exact staticReduction_inside T K R _ le_rfl hab.le
    have hu := hl.union hr
    rw [Set.Iic_union_Ici] at hu
    exact hasDerivWithinAt_univ.mp hu
  · rcases lt_trichotomy x (T + K / 2) with h2 | h2 | h2
    · rw [staticSlope_inside T K R x h.le h2.le]
      refine (knee_quadratic_hasDerivAt T K R x hK).congr_of_eventuallyEq ?_
      exact Filter.eventuallyEq_of_mem (Ioo_mem_nhds h h2)
        (fun y hy => staticReduction_inside T K R y (le_of_lt hy.1) (le_of_lt hy.2))
    · subst h2
      rw [staticSlope_above T K R _ hK le_rfl]
      have hl : HasDerivWithinAt (staticReduction T K R) (1 - 1 / R) (Set.Iic (T + K / 2))
          (T + K / 2) := by
        have hq : HasDerivWithinAt (fun y : ℝ => (1 - 1 / R) * (y - T + K / 2) ^ 2 / (2 * K))
            ((1 - 1 / R) * (T + K / 2 - (T - K / 2)) / K) (Set.Iic (T + K / 2)) (T + K / 2) :=
          (knee_quadratic_hasDerivAt T K R (T + K / 2) hK).hasDerivWithinAt
        have e : (1 - 1 / R) * (T + K / 2 - (T - K / 2)) / K = 1 - 1 / R := by
          field_simp
        rw [e] at hq
        refine hq.congr_of_eventuallyEq ?_ ?_
        · refine Filter.eventuallyEq_of_mem
            (inter_mem_nhdsWithin (Set.Iic (T + K / 2)) (Ioi_mem_nhds hab)) ?_
          intro y hy
          exact staticReduction_inside T K R y (le_of_lt hy.2) hy.1
        · exact staticReduction_inside T K R _ hab.le le_rfl
      have hr : HasDerivWithinAt (staticReduction T K R) (1 - 1 / R) (Set.Ici (T + K / 2))
          (T + K / 2) := by
        have hq : HasDerivWithinAt (fun y : ℝ => (y - T) * (1 - 1 / R)) (1 - 1 / R)
            (Set.Ici (T + K / 2)) (T + K / 2) :=
          (knee_linear_hasDerivAt T R (T + K / 2)).hasDerivWithinAt
        have hb : staticReduction T K R (T + K / 2) = (T + K / 2 - T) * (1 - 1 / R) := by
          rw [staticReduction_inside T K R _ hab.le le_rfl]
          field_simp
          ring
        refine hq.congr ?_ hb
        intro y hy
        rcases eq_or_lt_of_le (Set.mem_Ici.mp hy) with h1 | h1
        · rw [← h1]; exact hb
        · exact staticReduction_above T K R y hK.le h1
      have hu := hl.union hr
      rw [Set.Iic_union_Ici] at hu
      exact hasDerivWithinAt_univ.mp hu
    · rw [staticSlope_above T K R x hK h2.le]
      refine (knee_linear_hasDerivAt T R x).congr_of_eventuallyEq ?_
      exact Filter.eventuallyEq_of_mem (Ioi_mem_nhds h2)
        (fun y hy => staticReduction_above T K R y hK.le hy)

theorem staticSlope_continuous (T K R : ℝ) : Continuous (staticSlope T K R) := by
  unfold staticSlope
  fun_prop

theorem staticReduction_deriv (T K R : ℝ) (hK : 0 < K) :
    deriv (staticReduction T K R) = staticSlope T K R :=
  funext (fun x => (staticReduction_hasDerivAt T K R hK x).deriv)

/-- The quadratic of the knee window is forced by the spec: a quadratic `c2 y^2 + c1 y + c0`
that joins the lower regime at `threshold - knee/2` with value `0` and slope `0` and reaches
the slope `1 - 1/ratio` of the upper regime at `threshold + knee/2` is the one of
`staticReduction`. -/
theorem knee_quadratic_unique (T K R c2 c1 c0 : ℝ) (hK : 0 < K)
    (hv : c2 * (T - K / 2) ^ 2 + c1 * (T - K / 2) + c0 = 0)
    (hd : 2 * c2 * (T - K / 2) + c1 = 0)
    (hu : 2 * c2 * (T + K / 2) + c1 = 1 - 1 / R) (y : ℝ) :
    c2 * y ^ 2 + c1 * y + c0 = (1 - 1 / R) * (y - T + K / 2) ^ 2 / (2 * K) := by
  have hK2 : K ≠ 0 := hK.ne'
  have h2 : c2 = (1 - 1 / R) / (2 * K) := by
    have : 2 * c2 * K = 1 - 1 / R := by linarith
    rw [eq_div_iff (by positivity)]
    linarith
  have h1 : c1 = -(2 * c2 * (T - K / 2)) := by linarith
  have h0 : c0 = c2 * (T - K / 2) ^ 2 := by
    rw [h1] at hv
    linarith [hv]
  rw [h0, h1]
  have e : (1 - 1 / R) * (y - T + K / 2) ^ 2 / (2 * K)
      = (1 - 1 / R) / (2 * K) * (y - T + K / 2) ^ 2 := by ring
  rw [e, ← h2]
  ring

/-! ## Lemmas on the look-ahead delay line -/

theorem foldl_set_length {β : Type} (idx : Nat → Nat) (val : Nat → β) (n : Nat) (b0 : List β) :
    ((List.range n).foldl (fun b j => b.set (idx j) (val j)) b0).length = b0.length := by
  induction n with
  | zero => simp
  | succ k ih =>
    rw [List.range_succ, List.foldl_append]
    simp only [List.foldl_cons, List.foldl_nil, List.length_set]
    exact ih

theorem foldl_set_mem {β : Type} (idx : Nat → Nat) (val : Nat → β) (n : Nat) (b0 : List β)
    (v : β) (hv : v ∈ (List.range n).foldl (fun b j => b.set (idx j) (val j)) b0) :
    v ∈ b0 ∨ ∃ j, j < n ∧ v = val j := by
  induction n with
  | zero => left; simpa using hv
  | succ k ih =>
    rw [List.range_succ, List.foldl_append] at hv
    simp only [List.foldl_cons, List.foldl_nil] at hv
    rcases List.mem_or_eq_of_mem_set hv with h | h
    · rcases ih h with h1 | ⟨j, hj, h1⟩
      · exact Or.inl h1
      · exact Or.inr ⟨j, by omega, h1⟩
    · exact Or.inr ⟨k, by omega, h⟩

theorem foldl_set_range_get {β : Type} (val : Nat → β) (n : Nat) (g0 : List β) (i : Nat) :
    ((List.range n).foldl (fun g j => g.set j (val j)) g0)[i]? =
      if i < n ∧ i < g0.length then some (val i) else g0[i]? := by
  induction n with
  | zero => simp
  | succ k ih =>
    have hlen := foldl_set_length (fun j => j) val k g0
    rw [List.range_succ, List.foldl_append]
    simp only [List.foldl_cons, List.foldl_nil, List.getElem?_set, hlen]
    by_cases h1 : k = i
    · subst h1
      by_cases h2 : k < g0.length
      · simp [h2]
      · rw [ih]
        have h4 : g0.length ≤ k := by omega
        simp [h2, h4]
    · rw [if_neg h1, ih]
      by_cases h3 : i < g0.length
      · have e : (i < k ↔ i < k + 1) := by omega
        simp [h3, e]
      · simp [h3]

theorem getD_zero_or_mem_take (src : List α) (j n : Nat) (hj : j < n) :
    src.getD j 0 = 0 ∨ src.getD j 0 ∈ src.take n := by
  by_cases h : j < src.length
  · right
    rw [List.getD_eq_getElem _ _ h, List.mem_take_iff_getElem]
    exact ⟨j, by omega, rfl⟩
  · left
    simp [List.getD_eq_getElem?_getD, List.getElem?_eq_none (by omega : src.length ≤ j)]

theorem LookaheadBuffer.prepare_inv (delay capacity : Nat) (hC : 0 < capacity) :
    LookaheadBuffer.Inv delay capacity (fun _ => False)
      (LookaheadBuffer.prepare delay capacity : LookaheadBuffer α) := by
  refine ⟨rfl, by simp [LookaheadBuffer.prepare], hC, Nat.mod_lt _ hC, ?_, ?_⟩
  · show ((capacity - delay % capacity) % capacity + delay) % capacity = 0 % capacity
    rw [Nat.mod_add_mod, Nat.zero_mod]
    have h1 : delay % capacity < capacity := Nat.mod_lt _ hC
    have h2 : delay % capacity + capacity * (delay / capacity) = delay :=
      Nat.mod_add_div delay capacity
    have h3 : capacity - delay % capacity + delay
        = capacity + capacity * (delay / capacity) := by omega
    rw [h3, Nat.add_mul_mod_self_left, Nat.mod_self]
  · intro v hv
    left
    simp only [LookaheadBuffer.prepare] at hv
    exact List.eq_of_mem_replicate hv

theorem LookaheadBuffer.inv_mono (delay capacity : Nat) (P Q : α → Prop)
    (s : LookaheadBuffer α) (hPQ : ∀ v, P v → Q v)
    (h : LookaheadBuffer.Inv delay capacity P s) : LookaheadBuffer.Inv delay capacity Q s := by
  obtain ⟨h1, h2, h3, h4, h5, h6⟩ := h
  refine ⟨h1, h2, h3, h4, h5, ?_⟩
  intro v hv
  rcases h6 v hv with h | h
  · exact Or.inl h
  · exact Or.inr (hPQ v h)

/-- One block keeps the invariant, with the values it pushes added to the admissible slot
contents, and reads only `0 dB` or admissible values. -/
theorem LookaheadBuffer.block_inv (delay capacity : Nat) (hC : 0 < capacity) (P : α → Prop)
    (s : LookaheadBuffer α) (g look_buf : List α) (n : Nat)
    (h : LookaheadBuffer.Inv delay capacity P s) :
    LookaheadBuffer.Inv delay capacity (fun v => P v ∨ v ∈ g.take n) (s.block g look_buf n).1 ∧
    ∀ (i : Nat) (v : α), i < n → (s.block g look_buf n).2[i]? = some v →
      v = 0 ∨ P v ∨ v ∈ g.take n := by
  obtain ⟨h1, h2, h3, h4, h5, h6⟩ := h
  have hlen : (s.pushSamples g n).buffer.length = capacity := by
    simp only [LookaheadBuffer.pushSamples]
    rw [foldl_set_length, h2]
  have hbuf : ∀ v ∈ (s.pushSamples g n).buffer, v = 0 ∨ P v ∨ v ∈ g.take n := by
    intro v hv
    simp only [LookaheadBuffer.pushSamples] at hv
    rcases foldl_set_mem _ _ n s.buffer v hv with hv1 | ⟨j, hj, hv1⟩
    · rcases h6 v hv1 with h | h
      · exact Or.inl h
      · exact Or.inr (Or.inl h)
    · rcases getD_zero_or_mem_take g j n hj with h | h
      · exact Or.inl (by rw [hv1]; exact h)
      · exact Or.inr (Or.inr (by rw [hv1]; exact h))
  refine ⟨⟨h1, hlen, ?_, ?_, ?_, hbuf⟩, ?_⟩
  · show (s.writeCursor + n) % s.buffer.length < capacity
    rw [h2]
    exact Nat.mod_lt _ hC
  · show (s.readCursor + n) % (s.pushSamples g n).buffer.length < capacity
    rw [hlen]
    exact Nat.mod_lt _ hC
  · show ((s.readCursor + n) % (s.pushSamples g n).buffer.length + delay) % capacity
      = ((s.writeCursor + n) % s.buffer.length) % capacity
    rw [hlen, h2, Nat.mod_add_mod, Nat.mod_mod]
    have e : s.readCursor + n + delay = s.readCursor + delay + n := by omega
    rw [e, ← Nat.mod_add_mod (s.readCursor + delay), h5, Nat.mod_add_mod]
  · intro i v hi hv
    have hv2 : ((List.range n).foldl (fun d j => d.set j
        ((s.pushSamples g n).buffer.getD
          (((s.pushSamples g n).readCursor + j) % (s.pushSamples g n).buffer.length) 0))
        look_buf)[i]? = some v := hv
    rw [foldl_set_range_get] at hv2
    by_cases hl : i < look_buf.length
    · rw [if_pos ⟨hi, hl⟩] at hv2
      simp only [Option.some.injEq] at hv2
      have hidx : ((s.pushSamples g n).readCursor + i) % (s.pushSamples g n).buffer.length
          < (s.pushSamples g n).buffer.length := by
        rw [hlen]
        exact Nat.mod_lt _ hC
      rw [List.getD_eq_getElem _ _ hidx] at hv2
      rw [← hv2]
      exact hbuf _ (List.getElem_mem _)
    · rw [if_neg (by omega), List.getElem?_eq_none (by omega)] at hv2
      cases hv2

theorem LookaheadBuffer.run_inv (delay capacity : Nat) (hC : 0 < capacity) (n : Nat)
    (pushes : List (List α)) (P : α → Prop) (s : LookaheadBuffer α) (look_buf : List α)
    (h : LookaheadBuffer.Inv delay capacity P s) (k : Nat) (s1 : LookaheadBuffer α)
    (out : List α) (hk : (LookaheadBuffer.run n s look_buf pushes)[k]? = some (s1, out)) :
    LookaheadBuffer.Inv delay capacity
      (fun v => P v ∨ ∃ (j : Nat) (g : List α), j ≤ k ∧ pushes[j]? = some g ∧ v ∈ g.take n) s1 ∧
    ∀ (i : Nat) (v : α), i < n → out[i]? = some v →
      v = 0 ∨ P v ∨ ∃ (j : Nat) (g : List α), j ≤ k ∧ pushes[j]? = some g ∧ v ∈ g.take n := by
  induction pushes generalizing P s look_buf k with
  | nil => simp [LookaheadBuffer.run] at hk
  | cons g rest ih =>
    have hb := LookaheadBuffer.block_inv delay capacity hC P s g look_buf n h
    cases k with
    | zero =>
      simp only [LookaheadBuffer.run, List.getElem?_cons_zero, Option.some.injEq] at hk
      rw [hk] at hb
      refine ⟨LookaheadBuffer.inv_mono delay capacity _ _ s1 ?_ hb.1, ?_⟩
      · intro v hv
        rcases hv with hv | hv
        · exact Or.inl hv
        · exact Or.inr ⟨0, g, le_refl 0, by simp, hv⟩
      · intro i v hi hv
        rcases hb.2 i v hi hv with h1 | h1 | h1
        · exact Or.inl h1
        · exact Or.inr (Or.inl h1)
        · exact Or.inr (Or.inr ⟨0, g, le_refl 0, by simp, h1⟩)
    | succ k1 =>
      simp only [LookaheadBuffer.run, List.getElem?_cons_succ] at hk
      have h2 := ih (fun v => P v ∨ v ∈ g.take n) _ _ hb.1 k1 hk
      refine ⟨LookaheadBuffer.inv_mono delay capacity _ _ s1 ?_ h2.1, ?_⟩
      · intro v hv
        rcases hv with (hv | hv) | ⟨j, g1, hj, hg, hv⟩
        · exact Or.inl hv
        · exact Or.inr ⟨0, g, by omega, by simp, hv⟩
        · exact Or.inr ⟨j + 1, g1, by omega, by simpa using hg, hv⟩
      · intro i v hi hv
        rcases h2.2 i v hi hv with h1 | (h1 | h1) | ⟨j, g1, hj, hg, h1⟩
        · exact Or.inl h1
        · exact Or.inr (Or.inl h1)
        · exact Or.inr (Or.inr ⟨0, g, by omega, by simp, h1⟩)
        · exact Or.inr (Or.inr ⟨j + 1, g1, by omega, by simpa using hg, h1⟩)

/-- With `useLookAhead` set, a call of `operator()` performs one block on the look-ahead
component, pushing the output of `computeGainInDecibelsFromSidechainSignal`. -/
theorem operator_call_lookahead_block {G L : Type} (m : Libm α) (lib : SimpleCompressor α G L)
    (block_size : Nat) (p : CompressorPlugin α G (LookaheadBuffer α)) (frames : AudioIOData α)
    (h : p.useLookAhead = true) :
    ((p.operator_call m (withLookaheadModel lib) block_size frames).plugin.lookahead,
        (p.operator_call m (withLookaheadModel lib) block_size frames).plugin.look_buf)
      = p.lookahead.block
          (lib.computeGainInDecibelsFromSidechainSignal p.gain
            (sidechainLoop frames 0 p.sidechain_buf) p.gain_buf block_size).2
          p.look_buf block_size := by
  simp [CompressorPlugin.operator_call, computeGain, h, withLookaheadModel,
    LookaheadBuffer.block]

theorem processBlocks_lookahead_run {G L : Type} (m : Libm α) (lib : SimpleCompressor α G L)
    (block_size : Nat) (p : CompressorPlugin α G (LookaheadBuffer α))
    (blocks : List (AudioIOData α)) (h : p.useLookAhead = true) :
    (processBlocks m (withLookaheadModel lib) block_size p blocks).map
        (fun r => (r.plugin.lookahead, r.plugin.look_buf))
      = LookaheadBuffer.run block_size p.lookahead p.look_buf
          (pushedDecibels m (withLookaheadModel lib) block_size p blocks) := by
  induction blocks generalizing p with
  | nil => rfl
  | cons b rest ih =>
    have hb := operator_call_lookahead_block m lib block_size p b h
    have hu : (p.operator_call m (withLookaheadModel lib) block_size b).plugin.useLookAhead
        = true := h
    simp only [processBlocks, pushedDecibels, List.map_cons, LookaheadBuffer.run]
    rw [ih _ hu]
    have e1 := congrArg Prod.fst hb
    have e2 := congrArg Prod.snd hb
    simp only at e1 e2
    have e3 : (withLookaheadModel lib).computeGainInDecibelsFromSidechainSignal
        = lib.computeGainInDecibelsFromSidechainSignal := rfl
    rw [e3, ← e1, ← e2, hb]

/-! ## Lemmas on buffers longer than a block and on the diagnostics state -/

theorem sidechainLoop_take (fs : List (Frame α)) (i : Nat) (buf : List α) :
    sidechainLoop fs i buf = sidechainLoop (fs.take (BLOCK_SIZE - i)) i buf := by
  induction fs generalizing i buf with
  | nil => simp [sidechainLoop]
  | cons f rest ih =>
    by_cases h : i < BLOCK_SIZE
    · have e : BLOCK_SIZE - i = (BLOCK_SIZE - (i + 1)) + 1 := by omega
      rw [e, List.take_succ_cons]
      simp only [sidechainLoop, h, if_true]
      exact ih (i + 1) _
    · have e : BLOCK_SIZE - i = 0 := by omega
      rw [e, List.take_zero]
      simp [sidechainLoop, h]

theorem applyGainLoop_stats_take (g : List α) (fs : List (Frame α)) (i : Nat)
    (st : CompressorStats α) :
    (applyGainLoop g fs i st).2 = (applyGainLoop g (fs.take (BLOCK_SIZE - i)) i st).2 := by
  induction fs generalizing i st with
  | nil => simp [applyGainLoop]
  | cons f rest ih =>
    by_cases h : i < BLOCK_SIZE
    · have e : BLOCK_SIZE - i = (BLOCK_SIZE - (i + 1)) + 1 := by omega
      rw [e, List.take_succ_cons, applyGainLoop_cons_lt g f rest i st h,
        applyGainLoop_cons_lt g f _ i st h]
      exact ih (i + 1) _
    · have e : BLOCK_SIZE - i = 0 := by omega
      rw [e, List.take_zero, applyGainLoop_cons_ge g f rest i st h]
      simp [applyGainLoop]

/-- What a call of `operator()` leaves apart from the audio frames is determined by the
first `BLOCK_SIZE` frames of the buffer. -/
theorem operator_call_take {G L : Type} (m : Libm α) (lib : SimpleCompressor α G L)
    (block_size : Nat) (p : CompressorPlugin α G L) (frames frames2 : AudioIOData α)
    (h : frames.take BLOCK_SIZE = frames2.take BLOCK_SIZE) :
    (p.operator_call m lib block_size frames).plugin
        = (p.operator_call m lib block_size frames2).plugin ∧
    (p.operator_call m lib block_size frames).stats
        = (p.operator_call m lib block_size frames2).stats ∧
    (p.operator_call m lib block_size frames).cout
        = (p.operator_call m lib block_size frames2).cout := by
  have hs : sidechainLoop frames 0 p.sidechain_buf = sidechainLoop frames2 0 p.sidechain_buf := by
    rw [sidechainLoop_take frames, sidechainLoop_take frames2, Nat.sub_zero, h]
  have ha : ∀ g : List α, (applyGain g frames).2 = (applyGain g frames2).2 := by
    intro g
    unfold applyGain
    rw [applyGainLoop_stats_take g frames, applyGainLoop_stats_take g frames2, Nat.sub_zero, h]
  simp only [CompressorPlugin.operator_call, hs, ha]
  exact ⟨trivial, trivial, trivial⟩

/-- With `useLookAhead` set, the gain of index `i` is `decibelsToLinear` of the value that
`readSamples` left in `look_buf[i]`. -/
theorem operator_call_lookahead_gain {G L : Type} (m : Libm α) (lib : SimpleCompressor α G L)
    (block_size : Nat) (p : CompressorPlugin α G L) (frames : AudioIOData α)
    (h : p.useLookAhead = true) (i : Nat) (d : α) (hi : i < block_size)
    (hlen : i < (lib.computeGainInDecibelsFromSidechainSignal p.gain
        (p.operator_call m lib block_size frames).plugin.sidechain_buf p.gain_buf
        block_size).2.length)
    (hd : (p.operator_call m lib block_size frames).plugin.look_buf[i]? = some d) :
    (p.operator_call m lib block_size frames).plugin.gain_buf[i]?
      = some (decibelsToLinear m d) := by
  have hg : (p.operator_call m lib block_size frames).plugin.gain_buf
      = lookaheadToLinear m block_size
          (p.operator_call m lib block_size frames).plugin.look_buf
          (lib.computeGainInDecibelsFromSidechainSignal p.gain
            (p.operator_call m lib block_size frames).plugin.sidechain_buf p.gain_buf
            block_size).2 := by
    simp [CompressorPlugin.operator_call, computeGain, h]
  rw [hg, lookaheadToLinear_get, if_pos ⟨hi, hlen⟩, getD_of_getElem _ i d hd]

theorem decibelsToLinear_real_pos (d : ℝ) : 0 < decibelsToLinear realLibm d := by
  unfold decibelsToLinear realLibm
  exact Real.rpow_pos_of_pos (by norm_num) _

theorem decibelsToLinear_real_le_one (d : ℝ) : decibelsToLinear realLibm d ≤ 1 ↔ d ≤ 0 := by
  unfold decibelsToLinear realLibm
  simp only
  have h10 : (1 : ℝ) < 10 := by norm_num
  have e : ((10 : ℝ) ^ (d / 20) ≤ 1) ↔ ((10 : ℝ) ^ (d / 20) ≤ (10 : ℝ) ^ (0 : ℝ)) := by
    rw [Real.rpow_zero]
  rw [e, Real.rpow_le_rpow_left_iff h10]
  constructor
  · intro h
    have := (div_le_iff₀ (by norm_num : (0 : ℝ) < 20)).mp h
    linarith
  · intro h
    apply div_nonpos_of_nonpos_of_nonneg h
    norm_num

/-! ## Claims -/

/-- C1: the compressor never amplifies. For every block processed by `operator()` whose
per-frame gain values (the entries of `gain_buf` used by the gain loop) all lie in `(0, 1]`,
every output sample has magnitude at most that of the corresponding input sample, and
`post_peak ≤ pre_peak`. -/
theorem C1_compressor_never_amplifies {G L : Type} (m : Libm α) (lib : SimpleCompressor α G L)
    (block_size : Nat) (p : CompressorPlugin α G L) (frames : AudioIOData α)
    (hg : ∀ i, i < frames.length → i < BLOCK_SIZE →
      ∃ x, (p.operator_call m lib block_size frames).plugin.gain_buf[i]? = some x
        ∧ 0 < x ∧ x ≤ 1) :
    (p.operator_call m lib block_size frames).frames.length = frames.length ∧
    (∀ (i : Nat) (f f' : Frame α), frames[i]? = some f →
        (p.operator_call m lib block_size frames).frames[i]? = some f' →
        abs f'.out0 ≤ abs f.out0 ∧ abs f'.out1 ≤ abs f.out1) ∧
    (p.operator_call m lib block_size frames).stats.post_peak
      ≤ (p.operator_call m lib block_size frames).stats.pre_peak := by
  refine ⟨?_, ?_, ?_⟩
  · exact applyGainLoop_length _ _ _ _
  · intro i f f' hf hf'
    exact applyGain_sample_le _ frames hg i f f' hf hf'
  · exact applyGain_post_le_pre _ frames hg

/-- Witness of C1: one frame `(1, -1)` with the gain `1/2`. -/
theorem C1_compressor_never_amplifies_witness :
    (freshPlugin.operator_call stubLibm (constLib (1 / 2)) 128 [⟨1, -1⟩]).frames.length = 1 ∧
    (∀ (i : Nat) (f f' : Frame ℚ), ([⟨1, -1⟩] : AudioIOData ℚ)[i]? = some f →
        (freshPlugin.operator_call stubLibm (constLib (1 / 2)) 128 [⟨1, -1⟩]).frames[i]? = some f' →
        abs f'.out0 ≤ abs f.out0 ∧ abs f'.out1 ≤ abs f.out1) ∧
    (freshPlugin.operator_call stubLibm (constLib (1 / 2)) 128 [⟨1, -1⟩]).stats.post_peak
      ≤ (freshPlugin.operator_call stubLibm (constLib (1 / 2)) 128 [⟨1, -1⟩]).stats.pre_peak :=
  C1_compressor_never_amplifies stubLibm (constLib (1 / 2)) 128 freshPlugin [⟨1, -1⟩] (by
    intro i hi _
    have h0 : i = 0 := by simpa using hi
    subst h0
    exact ⟨1 / 2, rfl, by norm_num, by norm_num⟩)

/-- C3: DetectSidechain. The gain computer is called on the array `sidechain_buf` that the
first loop of `operator()` has filled, and for every frame `i` of the block (a frame of
the buffer with `i < BLOCK_SIZE`, inside the array) its entry `i` is
`max(|left[i]|, |right[i]|)` of the samples `operator()` received, that is before any
gain is applied, entry `i` coming from frame `i`. -/
theorem C3_detect_sidechain {G L : Type} (m : Libm α) (lib : SimpleCompressor α G L)
    (block_size : Nat) (p : CompressorPlugin α G L) (frames : AudioIOData α) :
    (p.operator_call m lib block_size frames).plugin.gain =
      (if p.useLookAhead then
        (lib.computeGainInDecibelsFromSidechainSignal p.gain
          (p.operator_call m lib block_size frames).plugin.sidechain_buf p.gain_buf block_size).1
      else
        (lib.computeLinearGainFromSidechainSignal p.gain
          (p.operator_call m lib block_size frames).plugin.sidechain_buf p.gain_buf block_size).1) ∧
    ∀ (i : Nat) (f : Frame α), frames[i]? = some f → i < BLOCK_SIZE →
      i < p.sidechain_buf.length →
      (p.operator_call m lib block_size frames).plugin.sidechain_buf[i]?
        = some (max (abs f.out0) (abs f.out1)) := by
  refine ⟨?_, ?_⟩
  · simp only [CompressorPlugin.operator_call, computeGain]
    split <;> rfl
  · intro i f hf hi hb
    have h := sidechainLoop_get frames 0 p.sidechain_buf i f hf (by omega) (by omega)
    rw [Nat.zero_add] at h
    exact h

/-- Witness of C3: the block `(1, -3), (-2, 1/2)` gives the sidechain values `3, 2`. -/
theorem C3_detect_sidechain_witness :
    (freshPlugin.operator_call stubLibm (constLib 1) 128 [⟨1, -3⟩, ⟨-2, 1 / 2⟩]).plugin.sidechain_buf[1]?
      = some (max (abs (-2 : ℚ)) (abs (1 / 2 : ℚ))) :=
  (C3_detect_sidechain stubLibm (constLib 1) 128 freshPlugin [⟨1, -3⟩, ⟨-2, 1 / 2⟩]).2
    1 ⟨-2, 1 / 2⟩ rfl (by decide) (by decide)

/-- C4: ApplyGain. For every frame `i` of the block, after `operator()` the left sample is
`left[i] * gain[i]` and the right sample is `right[i] * gain[i]`, with the same entry
`gain_buf[i]` for both channels. -/
theorem C4_apply_gain {G L : Type} (m : Libm α) (lib : SimpleCompressor α G L)
    (block_size : Nat) (p : CompressorPlugin α G L) (frames : AudioIOData α)
    (i : Nat) (f : Frame α) (x : α) (hf : frames[i]? = some f) (hi : i < BLOCK_SIZE)
    (hx : (p.operator_call m lib block_size frames).plugin.gain_buf[i]? = some x) :
    (p.operator_call m lib block_size frames).frames[i]?
      = some ⟨f.out0 * x, f.out1 * x⟩ := by
  have h := applyGainLoop_get (p.operator_call m lib block_size frames).plugin.gain_buf
    frames 0 ⟨0, 1, 0⟩ i
  rw [hf, Nat.zero_add] at h
  simp only [Option.map_some', if_pos hi, getD_of_getElem _ i x hx] at h
  exact h

/-- Witness of C4: the frame `(1, -3)` with gain `1/2` becomes `(1/2, -3/2)`. -/
theorem C4_apply_gain_witness :
    (freshPlugin.operator_call stubLibm (constLib (1 / 2)) 128 [⟨1, -3⟩]).frames[0]?
      = some ⟨1 * (1 / 2), -3 * (1 / 2)⟩ :=
  C4_apply_gain stubLibm (constLib (1 / 2)) 128 freshPlugin [⟨1, -3⟩] 0 ⟨1, -3⟩ (1 / 2)
    rfl (by decide) rfl

/-- C5: block peaks. `pre_peak` is the maximum over the frames of the block (the frames
`i < BLOCK_SIZE` of the buffer) of `max(|left|, |right|)` as `operator()` received them:
it bounds every frame and is reached by one; `post_peak` is the same maximum over the
frames as `operator()` leaves them; both are `0` for a block with no frames. -/
theorem C5_block_peaks {G L : Type} (m : Libm α) (lib : SimpleCompressor α G L)
    (block_size : Nat) (p : CompressorPlugin α G L) (frames : AudioIOData α) :
    ((∀ (i : Nat) (f : Frame α), frames[i]? = some f → i < BLOCK_SIZE →
        max (abs f.out0) (abs f.out1)
          ≤ (p.operator_call m lib block_size frames).stats.pre_peak) ∧
      (frames ≠ [] → ∃ (i : Nat) (f : Frame α), frames[i]? = some f ∧ i < BLOCK_SIZE ∧
        (p.operator_call m lib block_size frames).stats.pre_peak
          = max (abs f.out0) (abs f.out1)) ∧
      (frames = [] → (p.operator_call m lib block_size frames).stats.pre_peak = 0)) ∧
    ((∀ (i : Nat) (f : Frame α),
        (p.operator_call m lib block_size frames).frames[i]? = some f → i < BLOCK_SIZE →
        max (abs f.out0) (abs f.out1)
          ≤ (p.operator_call m lib block_size frames).stats.post_peak) ∧
      (frames ≠ [] → ∃ (i : Nat) (f : Frame α),
        (p.operator_call m lib block_size frames).frames[i]? = some f ∧ i < BLOCK_SIZE ∧
        (p.operator_call m lib block_size frames).stats.post_peak
          = max (abs f.out0) (abs f.out1)) ∧
      (frames = [] → (p.operator_call m lib block_size frames).stats.post_peak = 0)) := by
  refine ⟨⟨?_, ?_, ?_⟩, ⟨?_, ?_, ?_⟩⟩
  · intro i f hf hi
    exact applyGainLoop_pre_bound _ frames 0 ⟨0, 1, 0⟩ i f hf (by omega)
  · intro hne
    exact applyGain_pre_attained _ frames hne
  · intro he
    subst he
    rfl
  · intro i f hf hi
    have hf2 : (applyGain (p.operator_call m lib block_size frames).plugin.gain_buf frames).1[i]?
        = some f := hf
    rw [applyGain_out_frame _ frames i hi] at hf2
    cases hfi : frames[i]? with
    | none => rw [hfi] at hf2; cases hf2
    | some f0 =>
      rw [hfi] at hf2
      simp only [Option.map_some', Option.some.injEq] at hf2
      subst hf2
      have hb := applyGainLoop_post_bound (p.operator_call m lib block_size frames).plugin.gain_buf
        frames 0 ⟨0, 1, 0⟩ i f0 hfi (by omega)
      rw [Nat.zero_add] at hb
      exact hb
  · intro hne
    obtain ⟨i, f, hf, hi, h⟩ :=
      applyGain_post_attained (p.operator_call m lib block_size frames).plugin.gain_buf frames hne
    have e := applyGain_out_frame (p.operator_call m lib block_size frames).plugin.gain_buf
      frames i hi
    rw [hf] at e
    exact ⟨i, _, e, hi, h⟩
  · intro he
    subst he
    rfl

/-- Witness of C5: the block `(1, -3), (-2, 1/2)` with gain `1/2` has `pre_peak = 3`, reached
by frame 0, and `post_peak` reached by a frame of the output. -/
theorem C5_block_peaks_witness :
    (∃ (i : Nat) (f : Frame ℚ), ([⟨1, -3⟩, ⟨-2, 1 / 2⟩] : AudioIOData ℚ)[i]? = some f ∧
        i < BLOCK_SIZE ∧
        (freshPlugin.operator_call stubLibm (constLib (1 / 2)) 128
            [⟨1, -3⟩, ⟨-2, 1 / 2⟩]).stats.pre_peak = max (abs f.out0) (abs f.out1)) ∧
    (∃ (i : Nat) (f : Frame ℚ),
        (freshPlugin.operator_call stubLibm (constLib (1 / 2)) 128
            [⟨1, -3⟩, ⟨-2, 1 / 2⟩]).frames[i]? = some f ∧ i < BLOCK_SIZE ∧
        (freshPlugin.operator_call stubLibm (constLib (1 / 2)) 128
            [⟨1, -3⟩, ⟨-2, 1 / 2⟩]).stats.post_peak = max (abs f.out0) (abs f.out1)) :=
  ⟨(C5_block_peaks stubLibm (constLib (1 / 2)) 128 freshPlugin [⟨1, -3⟩, ⟨-2, 1 / 2⟩]).1.2.1
      (by simp),
    (C5_block_peaks stubLibm (constLib (1 / 2)) 128 freshPlugin [⟨1, -3⟩, ⟨-2, 1 / 2⟩]).2.2.1
      (by simp)⟩

/-- C6 (as the code has it): `duck` is the minimum of `1`, its initial value, and the gain
values applied to the frames of the block: it is at most `1`, at most every applied gain,
and it is `1` or one of the applied gains; when some applied gain is at most `1`, it is
the minimum of the applied gains. -/
theorem C6_duck_is_min_of_one_and_gains {G L : Type} (m : Libm α)
    (lib : SimpleCompressor α G L) (block_size : Nat) (p : CompressorPlugin α G L)
    (frames : AudioIOData α)
    (hlen : BLOCK_SIZE ≤ (p.operator_call m lib block_size frames).plugin.gain_buf.length) :
    (p.operator_call m lib block_size frames).stats.duck ≤ 1 ∧
    (∀ (i : Nat) (x : α), i < frames.length → i < BLOCK_SIZE →
      (p.operator_call m lib block_size frames).plugin.gain_buf[i]? = some x →
      (p.operator_call m lib block_size frames).stats.duck ≤ x) ∧
    ((p.operator_call m lib block_size frames).stats.duck = 1 ∨
      ∃ (i : Nat) (x : α), i < frames.length ∧ i < BLOCK_SIZE ∧
        (p.operator_call m lib block_size frames).plugin.gain_buf[i]? = some x ∧
        (p.operator_call m lib block_size frames).stats.duck = x) ∧
    ((∃ (i : Nat) (x : α), i < frames.length ∧ i < BLOCK_SIZE ∧
        (p.operator_call m lib block_size frames).plugin.gain_buf[i]? = some x ∧ x ≤ 1) →
      ∃ (i : Nat) (x : α), i < frames.length ∧ i < BLOCK_SIZE ∧
        (p.operator_call m lib block_size frames).plugin.gain_buf[i]? = some x ∧
        (p.operator_call m lib block_size frames).stats.duck = x) := by
  have h1 : (p.operator_call m lib block_size frames).stats.duck ≤ 1 :=
    applyGainLoop_duck_le _ frames 0 ⟨0, 1, 0⟩
  have h2 : ∀ (i : Nat) (x : α), i < frames.length → i < BLOCK_SIZE →
      (p.operator_call m lib block_size frames).plugin.gain_buf[i]? = some x →
      (p.operator_call m lib block_size frames).stats.duck ≤ x := by
    intro i x hi hb hx
    have h := applyGainLoop_duck_bound (p.operator_call m lib block_size frames).plugin.gain_buf
      frames 0 ⟨0, 1, 0⟩ i hi (by omega)
    rw [Nat.zero_add, getD_of_getElem _ i x hx] at h
    exact h
  have h3 : (p.operator_call m lib block_size frames).stats.duck = 1 ∨
      ∃ (i : Nat) (x : α), i < frames.length ∧ i < BLOCK_SIZE ∧
        (p.operator_call m lib block_size frames).plugin.gain_buf[i]? = some x ∧
        (p.operator_call m lib block_size frames).stats.duck = x := by
    rcases applyGainLoop_duck_attained
        (p.operator_call m lib block_size frames).plugin.gain_buf frames 0 ⟨0, 1, 0⟩
      with h | ⟨j, hj, hb, h⟩
    · exact Or.inl h
    · right
      rw [Nat.zero_add] at hb h
      have hjl : j < (p.operator_call m lib block_size frames).plugin.gain_buf.length := by omega
      refine ⟨j, _, hj, hb, List.getElem?_eq_getElem hjl, ?_⟩
      rw [getD_of_getElem _ j _ (List.getElem?_eq_getElem hjl)] at h
      exact h
  refine ⟨h1, h2, h3, ?_⟩
  rintro ⟨i, x, hi, hb, hx, hx1⟩
  rcases h3 with h | h
  · exact ⟨i, x, hi, hb, hx, le_antisymm (h2 i x hi hb hx) (by rw [h]; exact hx1)⟩
  · exact h

/-- Witness of C6: a block of one frame with gain `1/2` has `duck = 1/2`. -/
theorem C6_duck_is_min_of_one_and_gains_witness :
    ∃ (i : Nat) (x : ℚ), i < ([⟨1, -3⟩] : AudioIOData ℚ).length ∧ i < BLOCK_SIZE ∧
      (freshPlugin.operator_call stubLibm (constLib (1 / 2)) 128 [⟨1, -3⟩]).plugin.gain_buf[i]?
        = some x ∧
      (freshPlugin.operator_call stubLibm (constLib (1 / 2)) 128 [⟨1, -3⟩]).stats.duck = x :=
  (C6_duck_is_min_of_one_and_gains stubLibm (constLib (1 / 2)) 128 freshPlugin [⟨1, -3⟩]
    (by decide)).2.2.2 ⟨0, 1 / 2, by decide, by decide, rfl, by norm_num⟩

/-- Counterexample to C6 as stated: a block of 128 frames `(1, 1)` whose gains are all `2`
has `duck = 1`, which is none of the gain values applied. -/
theorem C6_duck_not_min_counterexample :
    (List.replicate 128 (⟨1, 1⟩ : Frame ℚ)) ≠ [] ∧
    (∀ (i : Nat), i < 128 →
      (freshPlugin.operator_call stubLibm (constLib 2) 128
        (List.replicate 128 ⟨1, 1⟩)).plugin.gain_buf[i]? = some 2) ∧
    (freshPlugin.operator_call stubLibm (constLib 2) 128
        (List.replicate 128 ⟨1, 1⟩)).stats.duck = 1 ∧
    (freshPlugin.operator_call stubLibm (constLib 2) 128
        (List.replicate 128 ⟨1, 1⟩)).stats.duck ≠ 2 := by
  have e : (freshPlugin.operator_call stubLibm (constLib 2) 128
      (List.replicate 128 ⟨1, 1⟩)).plugin.gain_buf = List.replicate 128 2 := by
    simp [CompressorPlugin.operator_call, computeGain, freshPlugin, constLib]
  have hg : ∀ (i : Nat), i < 128 →
      (freshPlugin.operator_call stubLibm (constLib 2) 128
        (List.replicate 128 ⟨1, 1⟩)).plugin.gain_buf[i]? = some 2 := by
    intro i hi
    rw [e, List.getElem?_replicate, if_pos hi]
  have hd : (freshPlugin.operator_call stubLibm (constLib 2) 128
      (List.replicate 128 ⟨1, 1⟩)).stats.duck = 1 := ?_
  · exact ⟨by simp, hg, hd, by rw [hd]; norm_num⟩
  rcases applyGainLoop_duck_attained
      (freshPlugin.operator_call stubLibm (constLib 2) 128
        (List.replicate 128 ⟨1, 1⟩)).plugin.gain_buf (List.replicate 128 ⟨1, 1⟩) 0 ⟨0, 1, 0⟩
    with h | ⟨j, hj, hb, h⟩
  · exact h
  · exfalso
    have h1 : (applyGainLoop (freshPlugin.operator_call stubLibm (constLib 2) 128
        (List.replicate 128 ⟨1, 1⟩)).plugin.gain_buf (List.replicate 128 ⟨1, 1⟩) 0
        ⟨0, 1, 0⟩).2.duck ≤ 1 := applyGainLoop_duck_le _ _ 0 ⟨0, 1, 0⟩
    rw [Nat.zero_add] at hb h
    rw [h, getD_of_getElem _ j 2 (hg j hb)] at h1
    norm_num at h1

/-- C7 (as the code has it): the UpdateStats step with `debug` on. A block prints a
diagnostic iff its stats are not approximately equal to `previousStats`; when it prints,
`previousStats` becomes the block's stats, otherwise it is unchanged. Hence the second of
two consecutive blocks with identical stats prints nothing and leaves `previousStats` as
it is, and a following block prints at most one line, and exactly one when its `duck`
differs by `1e-4` or more from the `duck` of `previousStats`; that is the `duck` of the
two identical blocks when the first of them printed. -/
theorem C7_update_stats_step (prev s t : CompressorStats α) :
    ((blockStep true prev s).1 ≠ [] ↔ s.operator_eq prev = false) ∧
    ((blockStep true prev s).1 ≠ [] → (blockStep true prev s).2 = s) ∧
    ((blockStep true prev s).1 = [] → (blockStep true prev s).2 = prev) ∧
    blockStep true (blockStep true prev s).2 s = ([], (blockStep true prev s).2) ∧
    (blockStep true (blockStep true prev s).2 t).1.length ≤ 1 ∧
    (1 / 10000 ≤ abs (t.duck - (blockStep true prev s).2.duck) →
      (blockStep true (blockStep true prev s).2 t).1.length = 1) ∧
    ((blockStep true prev s).1 ≠ [] → 1 / 10000 < abs (t.duck - s.duck) →
      (blockStep true (blockStep true prev s).2 t).1.length = 1) := by
  have hprint : (blockStep true prev s).1 ≠ [] → (blockStep true prev s).2 = s := by
    intro h
    rw [blockStep_emits_iff] at h
    rw [blockStep_of_ne prev s h]
  have hduck : ∀ r : CompressorStats α, 1 / 10000 ≤ abs (t.duck - r.duck) →
      (blockStep true r t).1.length = 1 := by
    intro r h
    have hne : t.operator_eq r = false := by
      rw [operator_eq_false_iff]
      exact Or.inr (Or.inl h)
    rw [blockStep_length, hne]
    rfl
  refine ⟨blockStep_emits_iff prev s, hprint, ?_, ?_, ?_, hduck _, ?_⟩
  · intro h
    cases hc : s.operator_eq prev
    · rw [blockStep_of_ne prev s hc] at h
      simp at h
    · rw [blockStep_of_eq prev s hc]
  · exact blockStep_of_eq _ s (blockStep_eq_after prev s)
  · rw [blockStep_length]
    split <;> simp
  · intro h hd
    rw [hprint h]
    exact hduck s (le_of_lt hd)

/-- Witness of C7: from `previousStats = (0, 1, 0)` the block `(1, 1/2, 1/2)` prints, and
after it a block with `duck = 1/4` prints exactly one line. -/
theorem C7_update_stats_step_witness :
    (blockStep true (blockStep true (⟨0, 1, 0⟩ : CompressorStats ℚ) ⟨1, 1 / 2, 1 / 2⟩).2
      ⟨1, 1 / 4, 1 / 4⟩).1.length = 1 :=
  (C7_update_stats_step (⟨0, 1, 0⟩ : CompressorStats ℚ) ⟨1, 1 / 2, 1 / 2⟩
    ⟨1, 1 / 4, 1 / 4⟩).2.2.2.2.2.2
    (by norm_num [blockStep, updateStats, CompressorStats.operator_eq, approxEqual, abs_lt])
    (by norm_num [abs_of_neg])

/-- Counterexample to C7 as stated: from the initial `previousStats = (0, 1, 0)` the blocks
with stats `(1, 0.5, 0.5)`, twice `(1, 0.50009, 0.50009)`, then `(1, 0.49998, 0.49998)`
(blocks whose peak sample is `1` and whose gain is `0.5`, `0.50009`, `0.49998`):
the last block follows two identical blocks and its `duck` differs from theirs by
`0.00011 > 1e-4`, yet it prints nothing (only the first block prints). -/
theorem C7_following_block_silent_counterexample :
    (updateStatsSeq true (⟨0, 1, 0⟩ : CompressorStats ℚ)
      [⟨1, 1 / 2, 1 / 2⟩, ⟨1, 50009 / 100000, 50009 / 100000⟩,
        ⟨1, 50009 / 100000, 50009 / 100000⟩, ⟨1, 49998 / 100000, 49998 / 100000⟩]).map
      (fun u => u.1.length) = [1, 0, 0, 0] ∧
    (1 / 10000 : ℚ) < abs (49998 / 100000 - 50009 / 100000) := by
  refine ⟨?_, by norm_num [abs_of_neg]⟩
  norm_num [updateStatsSeq, blockStep, updateStats, CompressorStats.operator_eq, approxEqual,
    abs_lt]

/-- C8 (as the code has it): with `debug` on, block `k` prints a diagnostic iff some field
of its stats differs by at least `1e-4` from the same field of `previousStats`, which is
the initial `previousStats` while no earlier block has printed, and otherwise the stats of
the most recent earlier block that printed. -/
theorem C8_emission_against_last_printed (prev : CompressorStats α)
    (blocks : List (CompressorStats α)) (k : Nat) (s : CompressorStats α)
    (o : List (Line α) × CompressorStats α) (hs : blocks[k]? = some s)
    (ho : (updateStatsSeq true prev blocks)[k]? = some o) :
    ((∀ (j : Nat) (oj : List (Line α) × CompressorStats α), j < k →
        (updateStatsSeq true prev blocks)[j]? = some oj → oj.1 = []) →
      (o.1 ≠ [] ↔ fieldDiffers s prev)) ∧
    (∀ (j : Nat) (sj : CompressorStats α) (oj : List (Line α) × CompressorStats α), j < k →
      blocks[j]? = some sj → (updateStatsSeq true prev blocks)[j]? = some oj → oj.1 ≠ [] →
      (∀ (l : Nat) (ol : List (Line α) × CompressorStats α), j < l → l < k →
        (updateStatsSeq true prev blocks)[l]? = some ol → ol.1 = []) →
      (o.1 ≠ [] ↔ fieldDiffers s sj)) := by
  refine ⟨?_, ?_⟩
  · intro hq
    have h := updateStatsSeq_quiet prev blocks k hq
    rw [ho, hs] at h
    simp only [Option.map_some', Option.some.injEq] at h
    rw [h, blockStep_emits_iff, operator_eq_false_iff]
  · intro j sj oj hjk hsj hoj hp hq
    have h := updateStatsSeq_after_print prev blocks j k sj oj hjk hsj hoj hp hq
    rw [ho, hs] at h
    simp only [Option.map_some', Option.some.injEq] at h
    rw [h, blockStep_emits_iff, operator_eq_false_iff]

/-- Witness of C8: in the run `(1, 0.5, 0.5), (1, 0.50006, 0.50006), (1, 0.50012, 0.50012)`
from `previousStats = (0, 1, 0)`, block 0 printed and block 1 did not, so block 2 is
compared with block 0. -/
theorem C8_emission_against_last_printed_witness :
    (([[("pre_peak:  ", 1), ("compress:  ", 50012 / 100000), ("post_peak: ", 50012 / 100000)]],
        ⟨1, 50012 / 100000, 50012 / 100000⟩) : List (Line ℚ) × CompressorStats ℚ).1 ≠ [] ↔
      fieldDiffers (⟨1, 50012 / 100000, 50012 / 100000⟩ : CompressorStats ℚ) ⟨1, 1 / 2, 1 / 2⟩ :=
  (C8_emission_against_last_printed (⟨0, 1, 0⟩ : CompressorStats ℚ)
    [⟨1, 1 / 2, 1 / 2⟩, ⟨1, 50006 / 100000, 50006 / 100000⟩, ⟨1, 50012 / 100000, 50012 / 100000⟩]
    2 ⟨1, 50012 / 100000, 50012 / 100000⟩
    ([[("pre_peak:  ", 1), ("compress:  ", 50012 / 100000), ("post_peak: ", 50012 / 100000)]],
      ⟨1, 50012 / 100000, 50012 / 100000⟩)
    rfl
    (by norm_num [updateStatsSeq, blockStep, updateStats, CompressorStats.operator_eq,
      approxEqual, abs_lt])).2
    0 ⟨1, 1 / 2, 1 / 2⟩
    ([[("pre_peak:  ", 1), ("compress:  ", 1 / 2), ("post_peak: ", 1 / 2)]], ⟨1, 1 / 2, 1 / 2⟩)
    (by decide) rfl
    (by norm_num [updateStatsSeq, blockStep, updateStats, CompressorStats.operator_eq,
      approxEqual, abs_lt])
    (by simp)
    (by
      intro l ol h1 h2 hl
      have e : l = 1 := by omega
      subst e
      norm_num [updateStatsSeq, blockStep, updateStats, CompressorStats.operator_eq,
        approxEqual, abs_lt] at hl
      rw [← hl])

/-- Counterexample to C8 as stated: in the run `(1, 0.5, 0.5), (1, 0.50006, 0.50006),
(1, 0.50012, 0.50012)` from the initial `previousStats = (0, 1, 0)` (blocks whose peak
sample is `1` and whose gain is `0.5`, `0.50006`, `0.50012`), block 2 prints although
no field of its stats differs by `1e-4` or more from block 1 (block 1 did not print, so
block 2 is compared with block 0). -/
theorem C8_previous_block_counterexample :
    (updateStatsSeq true (⟨0, 1, 0⟩ : CompressorStats ℚ)
      [⟨1, 1 / 2, 1 / 2⟩, ⟨1, 50006 / 100000, 50006 / 100000⟩,
        ⟨1, 50012 / 100000, 50012 / 100000⟩]).map (fun u => u.1.length) = [1, 0, 1] ∧
    ¬ fieldDiffers (⟨1, 50012 / 100000, 50012 / 100000⟩ : CompressorStats ℚ)
      ⟨1, 50006 / 100000, 50006 / 100000⟩ := by
  refine ⟨?_, ?_⟩
  · norm_num [updateStatsSeq, blockStep, updateStats, CompressorStats.operator_eq, approxEqual,
      abs_lt]
  · norm_num [fieldDiffers, abs_of_pos]

/-- C9 (as the code has it): with `debug` on, in `050_CompressorFJ.cpp` a block whose stats
equal those of the previous block prints nothing; `compression.cpp` has no such
de-duplication and prints its three lines for that block as for every other. -/
theorem C9_diagnostics_on_change (prev : CompressorStats α)
    (blocks : List (CompressorStats α)) (k : Nat) (s : CompressorStats α)
    (h1 : blocks[k]? = some s) (h2 : blocks[k + 1]? = some s) :
    (∃ o : List (Line α) × CompressorStats α,
      (updateStatsSeq true prev blocks)[k + 1]? = some o ∧ o.1 = []) ∧
    (printStatsSeq true blocks)[k + 1]?
      = some [[("pre_peak: ", s.pre_peak)], [("compress: ", s.duck)],
          [("post_peak: ", s.post_peak)]] := by
  refine ⟨?_, ?_⟩
  · obtain ⟨q, hq⟩ := updateStatsSeq_get true prev blocks k s h1
    have h := updateStatsSeq_succ true prev blocks k _ s hq h2
    rw [blockStep_of_eq _ s (blockStep_eq_after q s)] at h
    exact ⟨_, h, rfl⟩
  · simp [printStatsSeq, h2, printStats]

/-- Witness of C9: two consecutive blocks with stats `(1, 1/2, 1/2)`. -/
theorem C9_diagnostics_on_change_witness :
    (∃ o : List (Line ℚ) × CompressorStats ℚ,
      (updateStatsSeq true ⟨0, 1, 0⟩
        [(⟨1, 1 / 2, 1 / 2⟩ : CompressorStats ℚ), ⟨1, 1 / 2, 1 / 2⟩])[0 + 1]? = some o
        ∧ o.1 = []) ∧
    (printStatsSeq true [(⟨1, 1 / 2, 1 / 2⟩ : CompressorStats ℚ), ⟨1, 1 / 2, 1 / 2⟩])[0 + 1]?
      = some [[("pre_peak: ", 1)], [("compress: ", 1 / 2)], [("post_peak: ", 1 / 2)]] :=
  C9_diagnostics_on_change (⟨0, 1, 0⟩ : CompressorStats ℚ)
    [⟨1, 1 / 2, 1 / 2⟩, ⟨1, 1 / 2, 1 / 2⟩] 0 ⟨1, 1 / 2, 1 / 2⟩ rfl rfl

/-- Counterexample to C9 as stated: in `compression.cpp`, with `debug` on, two consecutive
calls of `operator()` on the same one-frame block `(1, -1)` with gain `1/2` end with the same
stats, and the second call prints three lines. -/
theorem C9_compression_prints_every_block_counterexample :
    ((freshPlugin.operator_call_compression stubLibm (constLib (1 / 2)) 128
        [⟨1, -1⟩]).plugin.operator_call_compression stubLibm (constLib (1 / 2)) 128
        [⟨1, -1⟩]).stats
      = (freshPlugin.operator_call_compression stubLibm (constLib (1 / 2)) 128 [⟨1, -1⟩]).stats ∧
    ((freshPlugin.operator_call_compression stubLibm (constLib (1 / 2)) 128
        [⟨1, -1⟩]).plugin.operator_call_compression stubLibm (constLib (1 / 2)) 128
        [⟨1, -1⟩]).cout.length = 3 ∧
    (printStatsSeq true [(⟨1, 1 / 2, 1 / 2⟩ : CompressorStats ℚ), ⟨1, 1 / 2, 1 / 2⟩])[1]?
      = some [[("pre_peak: ", 1)], [("compress: ", 1 / 2)], [("post_peak: ", 1 / 2)]] :=
  ⟨rfl, rfl, rfl⟩

/-- C10: stats equality. `operator==` is true iff each of the three fields differs by less
than `1e-4`; the bound is strict, a difference of exactly `1e-4` in any one field makes
the stats unequal. -/
theorem C10_stats_equality (l r : CompressorStats α) :
    (l.operator_eq r = true ↔
      abs (l.pre_peak - r.pre_peak) < 1 / 10000 ∧ abs (l.duck - r.duck) < 1 / 10000
        ∧ abs (l.post_peak - r.post_peak) < 1 / 10000) ∧
    ((abs (l.pre_peak - r.pre_peak) = 1 / 10000 ∨ abs (l.duck - r.duck) = 1 / 10000
        ∨ abs (l.post_peak - r.post_peak) = 1 / 10000) → l.operator_eq r = false) := by
  refine ⟨operator_eq_iff l r, ?_⟩
  intro h
  rw [operator_eq_false_iff]
  rcases h with h | h | h
  · exact Or.inl (le_of_eq h.symm)
  · exact Or.inr (Or.inl (le_of_eq h.symm))
  · exact Or.inr (Or.inr (le_of_eq h.symm))

/-- Witness of C10: `(0, 1, 0)` and `(0, 1 - 1e-4, 0)` differ by exactly `1e-4` in `duck`
and are unequal. -/
theorem C10_stats_equality_witness :
    (⟨0, 1, 0⟩ : CompressorStats ℚ).operator_eq ⟨0, 9999 / 10000, 0⟩ = false :=
  (C10_stats_equality (⟨0, 1, 0⟩ : CompressorStats ℚ) ⟨0, 9999 / 10000, 0⟩).2
    (Or.inr (Or.inl (by norm_num)))

/-- C11: round trip. For every real `x > 0`, in particular for every `x` in `(0, 1]`,
`decibelsToLinear(linearToDecibels(x))` is exactly `x`, hence within `1e-5` relative
error of `x`. -/
theorem C11_round_trip (x : ℝ) (h0 : 0 < x) :
    decibelsToLinear realLibm (linearToDecibels realLibm x) = x ∧
    abs (decibelsToLinear realLibm (linearToDecibels realLibm x) - x) ≤ 1 / 100000 * abs x := by
  have e : decibelsToLinear realLibm (linearToDecibels realLibm x) = x := by
    unfold decibelsToLinear linearToDecibels realLibm
    simp only
    rw [abs_of_pos h0, mul_div_cancel_left₀ _ (by norm_num : (20 : ℝ) ≠ 0)]
    exact Real.rpow_logb (by norm_num) (by norm_num) h0
  refine ⟨e, ?_⟩
  rw [e, sub_self, abs_zero]
  positivity

/-- Witness of C11: the round trip at `x = 1/2`. -/
theorem C11_round_trip_witness :
    decibelsToLinear realLibm (linearToDecibels realLibm (1 / 2)) = 1 / 2 ∧
    abs (decibelsToLinear realLibm (linearToDecibels realLibm (1 / 2)) - 1 / 2)
      ≤ 1 / 100000 * abs (1 / 2 : ℝ) :=
  C11_round_trip (1 / 2) (by norm_num)

/-- C12 (as the code has it): the look-ahead delay that the constructor of
`CompressorPlugin<128>` configures, `setDelayTime(0.005)` at the sample rate `48000`, is
`240` samples; it does not exceed the capacity `2 * block_size = 256` passed to
`lookahead.prepare`, but it exceeds that capacity minus one block, `128` samples. -/
theorem C12_lookahead_delay_and_capacity :
    delayInSamples (constructorSetup 128 : PluginSetup ℚ).delayTime
        (constructorSetup 128 : PluginSetup ℚ).lookaheadSampleRate = 240 ∧
    (constructorSetup 128 : PluginSetup ℚ).lookaheadCapacity = 256 ∧
    delayInSamples (constructorSetup 128 : PluginSetup ℚ).delayTime
        (constructorSetup 128 : PluginSetup ℚ).lookaheadSampleRate
      ≤ (constructorSetup 128 : PluginSetup ℚ).lookaheadCapacity ∧
    (constructorSetup 128 : PluginSetup ℚ).lookaheadCapacity - BLOCK_SIZE
      < delayInSamples (constructorSetup 128 : PluginSetup ℚ).delayTime
          (constructorSetup 128 : PluginSetup ℚ).lookaheadSampleRate := by
  have h : delayInSamples (constructorSetup 128 : PluginSetup ℚ).delayTime
      (constructorSetup 128 : PluginSetup ℚ).lookaheadSampleRate = 240 := by
    have e : ((5 : ℚ) / 1000 * 48000) = ((240 : ℕ) : ℚ) := by norm_num
    simp only [delayInSamples, constructorSetup, e, Nat.floor_natCast]
  rw [h]
  refine ⟨rfl, rfl, ?_, ?_⟩
  · simp [constructorSetup]
  · simp [constructorSetup, BLOCK_SIZE]

/-- Counterexample to C12 as stated: the configured delay is `240` samples and the capacity
minus one block is `256 - 128 = 128` samples, and `240 ≤ 128` is false. -/
theorem C12_delay_exceeds_capacity_minus_block_counterexample :
    delayInSamples (constructorSetup 128 : PluginSetup ℚ).delayTime
        (constructorSetup 128 : PluginSetup ℚ).lookaheadSampleRate = 240 ∧
    (constructorSetup 128 : PluginSetup ℚ).lookaheadCapacity - BLOCK_SIZE = 128 ∧
    ¬ (delayInSamples (constructorSetup 128 : PluginSetup ℚ).delayTime
        (constructorSetup 128 : PluginSetup ℚ).lookaheadSampleRate
      ≤ (constructorSetup 128 : PluginSetup ℚ).lookaheadCapacity - BLOCK_SIZE) := by
  have h : delayInSamples (constructorSetup 128 : PluginSetup ℚ).delayTime
      (constructorSetup 128 : PluginSetup ℚ).lookaheadSampleRate = 240 := by
    have e : ((5 : ℚ) / 1000 * 48000) = ((240 : ℕ) : ℚ) := by norm_num
    simp only [delayInSamples, constructorSetup, e, Nat.floor_natCast]
  rw [h]
  refine ⟨rfl, by simp [constructorSetup, BLOCK_SIZE], by simp [constructorSetup, BLOCK_SIZE]⟩

/-- C13: gain routing. With `useLookAhead` false the gains applied are the array filled by
`computeLinearGainFromSidechainSignal` and the look-ahead component and `look_buf` are
left as they were (no call reaches them); with `useLookAhead` true the gain applied to
frame `i` is `pow(10, d[i] / 20)` where `d` is what `readSamples(look_buf, block_size)`
returned after `pushSamples` of the output of `computeGainInDecibelsFromSidechainSignal`
followed by `process()`. -/
theorem C13_gain_routing {G L : Type} (m : Libm α) (lib : SimpleCompressor α G L)
    (block_size : Nat) (p : CompressorPlugin α G L) (frames : AudioIOData α) :
    (p.useLookAhead = false →
      (p.operator_call m lib block_size frames).plugin.gain_buf
        = (lib.computeLinearGainFromSidechainSignal p.gain
            (p.operator_call m lib block_size frames).plugin.sidechain_buf p.gain_buf
            block_size).2 ∧
      (p.operator_call m lib block_size frames).plugin.lookahead = p.lookahead ∧
      (p.operator_call m lib block_size frames).plugin.look_buf = p.look_buf ∧
      ∀ (i : Nat) (f : Frame α) (x : α), frames[i]? = some f → i < BLOCK_SIZE →
        (lib.computeLinearGainFromSidechainSignal p.gain
            (p.operator_call m lib block_size frames).plugin.sidechain_buf p.gain_buf
            block_size).2[i]? = some x →
        (p.operator_call m lib block_size frames).frames[i]? = some ⟨f.out0 * x, f.out1 * x⟩) ∧
    (p.useLookAhead = true →
      (p.operator_call m lib block_size frames).plugin.lookahead
        = (lib.readSamples (lib.process (lib.pushSamples p.lookahead
            (lib.computeGainInDecibelsFromSidechainSignal p.gain
              (p.operator_call m lib block_size frames).plugin.sidechain_buf p.gain_buf
              block_size).2 block_size)) p.look_buf block_size).1 ∧
      (p.operator_call m lib block_size frames).plugin.look_buf
        = (lib.readSamples (lib.process (lib.pushSamples p.lookahead
            (lib.computeGainInDecibelsFromSidechainSignal p.gain
              (p.operator_call m lib block_size frames).plugin.sidechain_buf p.gain_buf
              block_size).2 block_size)) p.look_buf block_size).2 ∧
      ∀ (i : Nat) (d : α), i < block_size →
        i < (lib.computeGainInDecibelsFromSidechainSignal p.gain
              (p.operator_call m lib block_size frames).plugin.sidechain_buf p.gain_buf
              block_size).2.length →
        (p.operator_call m lib block_size frames).plugin.look_buf[i]? = some d →
        (p.operator_call m lib block_size frames).plugin.gain_buf[i]?
            = some (m.pow 10 (d / 20)) ∧
          ∀ (f : Frame α), frames[i]? = some f → i < BLOCK_SIZE →
            (p.operator_call m lib block_size frames).frames[i]?
              = some ⟨f.out0 * m.pow 10 (d / 20), f.out1 * m.pow 10 (d / 20)⟩) := by
  refine ⟨?_, ?_⟩
  · intro h
    have hg : (p.operator_call m lib block_size frames).plugin.gain_buf
        = (lib.computeLinearGainFromSidechainSignal p.gain
            (p.operator_call m lib block_size frames).plugin.sidechain_buf p.gain_buf
            block_size).2 := by
      simp [CompressorPlugin.operator_call, computeGain, h]
    refine ⟨hg, ?_, ?_, ?_⟩
    · simp [CompressorPlugin.operator_call, computeGain, h]
    · simp [CompressorPlugin.operator_call, computeGain, h]
    · intro i f x hf hi hx
      rw [← hg] at hx
      have e := applyGain_out_frame (p.operator_call m lib block_size frames).plugin.gain_buf
        frames i hi
      rw [hf] at e
      simp only [Option.map_some', getD_of_getElem _ i x hx] at e
      exact e
  · intro h
    have hl : (p.operator_call m lib block_size frames).plugin.look_buf
        = (lib.readSamples (lib.process (lib.pushSamples p.lookahead
            (lib.computeGainInDecibelsFromSidechainSignal p.gain
              (p.operator_call m lib block_size frames).plugin.sidechain_buf p.gain_buf
              block_size).2 block_size)) p.look_buf block_size).2 := by
      simp [CompressorPlugin.operator_call, computeGain, h]
    have hg : (p.operator_call m lib block_size frames).plugin.gain_buf
        = lookaheadToLinear m block_size
            (p.operator_call m lib block_size frames).plugin.look_buf
            (lib.computeGainInDecibelsFromSidechainSignal p.gain
              (p.operator_call m lib block_size frames).plugin.sidechain_buf p.gain_buf
              block_size).2 := by
      simp [CompressorPlugin.operator_call, computeGain, h]
    refine ⟨?_, hl, ?_⟩
    · simp [CompressorPlugin.operator_call, computeGain, h]
    · intro i d hi hlen hd
      have hgi : (p.operator_call m lib block_size frames).plugin.gain_buf[i]?
          = some (m.pow 10 (d / 20)) := by
        rw [hg, lookaheadToLinear_get, if_pos ⟨hi, hlen⟩, getD_of_getElem _ i d hd]
        rfl
      refine ⟨hgi, ?_⟩
      intro f hf hb
      have e := applyGain_out_frame (p.operator_call m lib block_size frames).plugin.gain_buf
        frames i hb
      rw [hf] at e
      simp only [Option.map_some', getD_of_getElem _ i _ hgi] at e
      exact e

/-- Witness of C13: with `useLookAhead` false and a gain computer that fills the array with
`1/2`, the frame `(1, -3)` becomes `(1/2, -3/2)`; with `useLookAhead` true, a gain computer
that fills the array with `-3` dB and the delay line of the spec, the gain of frame `0` is
`pow(10, -3 / 20)`. -/
theorem C13_gain_routing_witness :
    (freshPlugin.operator_call stubLibm (constLib (1 / 2)) 128 [⟨1, -3⟩]).frames[0]?
      = some ⟨1 * (1 / 2), -3 * (1 / 2)⟩ ∧
    (lookaheadPlugin.operator_call stubLibm (withLookaheadModel (constLib (-3))) 128
        [⟨1, -3⟩]).plugin.gain_buf[0]? = some (stubLibm.pow 10 (-3 / 20)) :=
  ⟨((C13_gain_routing stubLibm (constLib (1 / 2)) 128 freshPlugin [⟨1, -3⟩]).1 rfl).2.2.2
      0 ⟨1, -3⟩ (1 / 2) rfl (by decide) rfl,
    (((C13_gain_routing stubLibm (withLookaheadModel (constLib (-3))) 128 lookaheadPlugin
      [⟨1, -3⟩]).2 rfl).2.2 0 (-3) (by decide) (by decide) rfl).1⟩

/-- C14: zero signal. For an all-zero stereo block and whatever gains the components
produce, `operator()` leaves the block all zeros, and `pre_peak` and `post_peak` are `0`. -/
theorem C14_zero_signal {G L : Type} (m : Libm α) (lib : SimpleCompressor α G L)
    (block_size : Nat) (p : CompressorPlugin α G L) (frames : AudioIOData α)
    (hz : ∀ f ∈ frames, f = (⟨0, 0⟩ : Frame α)) :
    (p.operator_call m lib block_size frames).frames = frames ∧
    (∀ f ∈ (p.operator_call m lib block_size frames).frames, f = (⟨0, 0⟩ : Frame α)) ∧
    (p.operator_call m lib block_size frames).stats.pre_peak = 0 ∧
    (p.operator_call m lib block_size frames).stats.post_peak = 0 := by
  have h := applyGainLoop_zero (p.operator_call m lib block_size frames).plugin.gain_buf
    frames 0 ⟨0, 1, 0⟩ hz rfl rfl
  have h1 : (p.operator_call m lib block_size frames).frames = frames := h.1
  refine ⟨h1, ?_, h.2.1, h.2.2⟩
  rw [h1]
  exact hz

/-- Witness of C14: a block of two silent frames with gain `1/2`. -/
theorem C14_zero_signal_witness :
    (freshPlugin.operator_call stubLibm (constLib (1 / 2)) 128 [⟨0, 0⟩, ⟨0, 0⟩]).frames
        = [⟨0, 0⟩, ⟨0, 0⟩] ∧
    (∀ f ∈ (freshPlugin.operator_call stubLibm (constLib (1 / 2)) 128 [⟨0, 0⟩, ⟨0, 0⟩]).frames,
      f = (⟨0, 0⟩ : Frame ℚ)) ∧
    (freshPlugin.operator_call stubLibm (constLib (1 / 2)) 128 [⟨0, 0⟩, ⟨0, 0⟩]).stats.pre_peak
        = 0 ∧
    (freshPlugin.operator_call stubLibm (constLib (1 / 2)) 128 [⟨0, 0⟩, ⟨0, 0⟩]).stats.post_peak
        = 0 :=
  C14_zero_signal stubLibm (constLib (1 / 2)) 128 freshPlugin [⟨0, 0⟩, ⟨0, 0⟩]
    (by intro f hf; simpa using hf)

/-- C15 (as the code has it): `linearToDecibels` does not floor its argument, it is
`20 * log10(|x|)`: finite for every non-zero `x` and `-inf` for `x = 0`. In particular the
decibel values of `pre_peak` and `post_peak` of an all-zero block are `-inf`. -/
theorem C15_decibels_of_zero (G L : Type) (m : Libm α) :
    (∀ x : α, x ≠ 0 → linearToDecibelsFloat m x = .finite (linearToDecibels m x)) ∧
    linearToDecibelsFloat m 0 = .negInf ∧
    (linearToDecibelsFloat m 0).isFinite = false ∧
    (∀ (lib : SimpleCompressor α G L) (block_size : Nat) (p : CompressorPlugin α G L)
        (frames : AudioIOData α), (∀ f ∈ frames, f = (⟨0, 0⟩ : Frame α)) →
      linearToDecibelsFloat m (p.operator_call m lib block_size frames).stats.pre_peak
          = .negInf ∧
      linearToDecibelsFloat m (p.operator_call m lib block_size frames).stats.post_peak
          = .negInf) := by
  have h0 : linearToDecibelsFloat m 0 = .negInf := by
    simp [linearToDecibelsFloat, log10Float, FloatResult.scale]
  refine ⟨?_, h0, ?_, ?_⟩
  · intro x hx
    have h1 : abs x ≠ 0 := abs_ne_zero.mpr hx
    have h2 : ¬ (abs x < 0) := not_lt.mpr (abs_nonneg x)
    simp [linearToDecibelsFloat, log10Float, FloatResult.scale, linearToDecibels, h1, h2]
  · rw [h0]; rfl
  · intro lib block_size p frames hz
    have h := applyGainLoop_zero (p.operator_call m lib block_size frames).plugin.gain_buf
      frames 0 ⟨0, 1, 0⟩ hz rfl rfl
    have h1 : (p.operator_call m lib block_size frames).stats.pre_peak = 0 := h.2.1
    have h2 : (p.operator_call m lib block_size frames).stats.post_peak = 0 := h.2.2
    rw [h1, h2]
    exact ⟨h0, h0⟩

/-- Witness of C15: `linearToDecibels(1/2)` is the finite number `20 * log10(1/2)`. -/
theorem C15_decibels_of_zero_witness :
    linearToDecibelsFloat stubLibm (1 / 2) = .finite (linearToDecibels stubLibm (1 / 2)) :=
  (C15_decibels_of_zero Unit Unit stubLibm).1 (1 / 2) (by norm_num)

/-- Counterexample to C15 as stated: a block of one silent frame processed with gain `1/2`
prints a diagnostic line (its `duck` differs from the initial `previousStats`) whose
`pre_peak` and `post_peak` are `0`, and `linearToDecibels(0)` is `-inf`, not finite. -/
theorem C15_silent_block_prints_neg_inf_counterexample :
    (freshPlugin.operator_call stubLibm (constLib (1 / 2)) 128 [⟨0, 0⟩]).cout
      = [[("pre_peak:  ", 0), ("compress:  ", 1 / 2), ("post_peak: ", 0)]] ∧
    linearToDecibelsFloat stubLibm 0 = .negInf ∧
    (linearToDecibelsFloat stubLibm 0).isFinite = false := by
  refine ⟨?_, ?_, ?_⟩
  · have e : (freshPlugin.operator_call stubLibm (constLib (1 / 2)) 128 [⟨0, 0⟩]).stats
        = ⟨0, 1 / 2, 0⟩ := by
      have hg : (freshPlugin.operator_call stubLibm (constLib (1 / 2)) 128
          [⟨0, 0⟩]).plugin.gain_buf[0]? = some (1 / 2) := rfl
      show (applyGain (freshPlugin.operator_call stubLibm (constLib (1 / 2)) 128
          [⟨0, 0⟩]).plugin.gain_buf [⟨0, 0⟩]).2 = ⟨0, 1 / 2, 0⟩
      simp only [applyGain, applyGainLoop, getD_of_getElem _ 0 _ hg]
      norm_num [BLOCK_SIZE]
    have h := (operator_call_blockStep stubLibm (constLib (1 / 2)) 128 freshPlugin [⟨0, 0⟩]).1
    rw [e] at h
    have h2 := congrArg Prod.fst h
    simp only at h2
    rw [h2]
    norm_num [blockStep, updateStats, CompressorStats.operator_eq, approxEqual, freshPlugin,
      abs_lt]
  · simp [linearToDecibelsFloat, log10Float, FloatResult.scale]
  · simp [linearToDecibelsFloat, log10Float, FloatResult.scale, FloatResult.isFinite]

/-- C16: knee continuity. For every threshold, every knee width `> 0` and every ratio (in
particular every ratio `≥ 1`), the static decibel gain-reduction curve is continuous at
`threshold - knee/2` and at `threshold + knee/2`, it is differentiable everywhere, and its
derivative is continuous at both knee boundaries. -/
theorem C16_knee_continuity (T K R : ℝ) (hK : 0 < K) :
    ContinuousAt (staticReduction T K R) (T - K / 2) ∧
    ContinuousAt (staticReduction T K R) (T + K / 2) ∧
    (∀ x : ℝ, DifferentiableAt ℝ (staticReduction T K R) x) ∧
    ContinuousAt (deriv (staticReduction T K R)) (T - K / 2) ∧
    ContinuousAt (deriv (staticReduction T K R)) (T + K / 2) := by
  refine ⟨?_, ?_, ?_, ?_, ?_⟩
  · exact (staticReduction_hasDerivAt T K R hK _).continuousAt
  · exact (staticReduction_hasDerivAt T K R hK _).continuousAt
  · intro x
    exact (staticReduction_hasDerivAt T K R hK x).differentiableAt
  · rw [staticReduction_deriv T K R hK]
    exact (staticSlope_continuous T K R).continuousAt
  · rw [staticReduction_deriv T K R hK]
    exact (staticSlope_continuous T K R).continuousAt

/-- Witness of C16: the curve of the constructor (threshold `-5`, knee `20`, ratio `100`). -/
theorem C16_knee_continuity_witness :
    ContinuousAt (staticReduction (-5 : ℝ) 20 100) (-5 - 20 / 2) ∧
    ContinuousAt (staticReduction (-5 : ℝ) 20 100) (-5 + 20 / 2) ∧
    (∀ x : ℝ, DifferentiableAt ℝ (staticReduction (-5 : ℝ) 20 100) x) ∧
    ContinuousAt (deriv (staticReduction (-5 : ℝ) 20 100)) (-5 - 20 / 2) ∧
    ContinuousAt (deriv (staticReduction (-5 : ℝ) 20 100)) (-5 + 20 / 2) :=
  C16_knee_continuity (-5) 20 100 (by norm_num)

/-- C17: scenario curve. With the threshold `-5`, ratio `100` and knee `20` that the
constructor sets, the static target reduction is `0` for every input level below `-15` and
is `(x - (-5)) * (1 - 1/100)` for every input level `x` above `5`. -/
theorem C17_scenario_curve (block_size : Nat) (x : α) :
    (x < -15 →
      staticReduction (constructorSetup block_size : PluginSetup α).threshold
        (constructorSetup block_size : PluginSetup α).knee
        (constructorSetup block_size : PluginSetup α).ratio x = 0) ∧
    (5 < x →
      staticReduction (constructorSetup block_size : PluginSetup α).threshold
        (constructorSetup block_size : PluginSetup α).knee
        (constructorSetup block_size : PluginSetup α).ratio x = (x - (-5)) * (1 - 1 / 100)) := by
  refine ⟨?_, ?_⟩
  · intro h
    apply staticReduction_below
    simp only [constructorSetup]
    linarith
  · intro h
    apply staticReduction_above
    · simp only [constructorSetup]
      norm_num
    · simp only [constructorSetup]
      linarith

/-- Witness of C17: the levels `-20` and `10`. -/
theorem C17_scenario_curve_witness :
    staticReduction (constructorSetup 128 : PluginSetup ℚ).threshold
        (constructorSetup 128 : PluginSetup ℚ).knee
        (constructorSetup 128 : PluginSetup ℚ).ratio (-20) = 0 ∧
    staticReduction (constructorSetup 128 : PluginSetup ℚ).threshold
        (constructorSetup 128 : PluginSetup ℚ).knee
        (constructorSetup 128 : PluginSetup ℚ).ratio 10 = (10 - (-5)) * (1 - 1 / 100) :=
  ⟨(C17_scenario_curve 128 (-20 : ℚ)).1 (by norm_num),
    (C17_scenario_curve 128 (10 : ℚ)).2 (by norm_num)⟩

/-- C18: look-ahead cursor invariant. Across every sequence of blocks processed with
`useLookAhead` set, starting from the prepared delay line (each block pushes `block_size`
values and then reads `block_size` values), after every block the ring keeps its capacity
and delay, the write cursor leads the read cursor by the configured delay modulo the
capacity, and every value that `readSamples` returned is `0` (a slot primed with 0 dB) or
a value written by `pushSamples` in this or an earlier block. -/
theorem C18_lookahead_cursor_invariant {G L : Type} (m : Libm α)
    (lib : SimpleCompressor α G L) (block_size delay capacity : Nat) (hC : 0 < capacity)
    (p : CompressorPlugin α G (LookaheadBuffer α)) (hla : p.useLookAhead = true)
    (hp : p.lookahead = LookaheadBuffer.prepare delay capacity)
    (blocks : List (AudioIOData α)) (k : Nat) (r : CallResult α G (LookaheadBuffer α))
    (hr : (processBlocks m (withLookaheadModel lib) block_size p blocks)[k]? = some r) :
    r.plugin.lookahead.buffer.length = capacity ∧ r.plugin.lookahead.delay = delay ∧
    (r.plugin.lookahead.readCursor + delay) % capacity
      = r.plugin.lookahead.writeCursor % capacity ∧
    ∀ (i : Nat) (v : α), i < block_size → r.plugin.look_buf[i]? = some v →
      v = 0 ∨ ∃ (j : Nat) (g : List α), j ≤ k ∧
        (pushedDecibels m (withLookaheadModel lib) block_size p blocks)[j]? = some g ∧
        v ∈ g.take block_size := by
  have hrun := processBlocks_lookahead_run m lib block_size p blocks hla
  have hk : (LookaheadBuffer.run block_size p.lookahead p.look_buf
      (pushedDecibels m (withLookaheadModel lib) block_size p blocks))[k]?
      = some (r.plugin.lookahead, r.plugin.look_buf) := by
    rw [← hrun, List.getElem?_map, hr]
    rfl
  have hinv : LookaheadBuffer.Inv delay capacity (fun _ => False) p.lookahead := by
    rw [hp]
    exact LookaheadBuffer.prepare_inv delay capacity hC
  obtain ⟨⟨h1, h2, _, _, h5, _⟩, h7⟩ := LookaheadBuffer.run_inv delay capacity hC block_size
    _ _ _ _ hinv k _ _ hk
  refine ⟨h2, h1, h5, ?_⟩
  intro i v hi hv
  rcases h7 i v hi hv with h | h | h
  · exact Or.inl h
  · exact absurd h id
  · exact Or.inr h

/-- Witness of C18: one block of one frame on the plugin with the delay `240` and the
capacity `256` of the constructor. -/
theorem C18_lookahead_cursor_invariant_witness :
    (lookaheadPlugin.operator_call stubLibm (withLookaheadModel (constLib (-3))) 128
        [⟨1, 1⟩]).plugin.lookahead.buffer.length = 256 ∧
    (lookaheadPlugin.operator_call stubLibm (withLookaheadModel (constLib (-3))) 128
        [⟨1, 1⟩]).plugin.lookahead.delay = 240 ∧
    ((lookaheadPlugin.operator_call stubLibm (withLookaheadModel (constLib (-3))) 128
        [⟨1, 1⟩]).plugin.lookahead.readCursor + 240) % 256
      = (lookaheadPlugin.operator_call stubLibm (withLookaheadModel (constLib (-3))) 128
        [⟨1, 1⟩]).plugin.lookahead.writeCursor % 256 :=
  have h := C18_lookahead_cursor_invariant stubLibm (constLib (-3)) 128 240 256 (by decide)
    lookaheadPlugin rfl rfl [[⟨1, 1⟩]] 0
    (lookaheadPlugin.operator_call stubLibm (withLookaheadModel (constLib (-3))) 128 [⟨1, 1⟩])
    rfl
  ⟨h.1, h.2.1, h.2.2.1⟩

/-- C23: frames beyond `BLOCK_SIZE` are untouched. For every audio buffer, `operator()`
leaves the frames with index `BLOCK_SIZE = 128` and above exactly as they were (and the
number of frames unchanged), and `pre_peak`, `duck`, `post_peak`, like the whole state the
call leaves and what it prints, depend only on the frames `0..127`: two buffers with the
same first 128 frames give the same. -/
theorem C23_frames_beyond_block_untouched {G L : Type} (m : Libm α)
    (lib : SimpleCompressor α G L) (block_size : Nat) (p : CompressorPlugin α G L)
    (frames frames2 : AudioIOData α) :
    (p.operator_call m lib block_size frames).frames.length = frames.length ∧
    (∀ (i : Nat), BLOCK_SIZE ≤ i →
      (p.operator_call m lib block_size frames).frames[i]? = frames[i]?) ∧
    (frames.take BLOCK_SIZE = frames2.take BLOCK_SIZE →
      (p.operator_call m lib block_size frames).stats
          = (p.operator_call m lib block_size frames2).stats ∧
      (p.operator_call m lib block_size frames).plugin
          = (p.operator_call m lib block_size frames2).plugin ∧
      (p.operator_call m lib block_size frames).cout
          = (p.operator_call m lib block_size frames2).cout) := by
  refine ⟨applyGainLoop_length _ _ _ _, ?_, ?_⟩
  · intro i hi
    have h := applyGainLoop_get (p.operator_call m lib block_size frames).plugin.gain_buf
      frames 0 ⟨0, 1, 0⟩ i
    have h2 : ¬ (0 + i < BLOCK_SIZE) := by omega
    simp only [h2, if_false] at h
    rw [Option.map_id'] at h
    exact h
  · intro h
    have h3 := operator_call_take m lib block_size p frames frames2 h
    exact ⟨h3.2.1, h3.1, h3.2.2⟩

/-- Witness of C23: a buffer of 129 frames and one of 128 frames with the same first 128
frames: frame 128 is left as it was and the statistics are the same. -/
theorem C23_frames_beyond_block_untouched_witness :
    (freshPlugin.operator_call stubLibm (constLib (1 / 2)) 128
        (List.replicate 128 ⟨1, 1⟩ ++ [⟨3, 4⟩])).frames[128]?
      = (List.replicate 128 (⟨1, 1⟩ : Frame ℚ) ++ [⟨3, 4⟩])[128]? ∧
    (freshPlugin.operator_call stubLibm (constLib (1 / 2)) 128
        (List.replicate 128 ⟨1, 1⟩ ++ [⟨3, 4⟩])).stats
      = (freshPlugin.operator_call stubLibm (constLib (1 / 2)) 128
        (List.replicate 128 ⟨1, 1⟩)).stats := by
  have h := C23_frames_beyond_block_untouched stubLibm (constLib (1 / 2)) 128 freshPlugin
    (List.replicate 128 ⟨1, 1⟩ ++ [⟨3, 4⟩]) (List.replicate 128 ⟨1, 1⟩)
  have hb : BLOCK_SIZE ≤ 128 := by decide
  have ht : List.take BLOCK_SIZE (List.replicate 128 (⟨1, 1⟩ : Frame ℚ) ++ [⟨3, 4⟩])
      = List.take BLOCK_SIZE (List.replicate 128 (⟨1, 1⟩ : Frame ℚ)) := by
    have e : BLOCK_SIZE = (List.replicate 128 (⟨1, 1⟩ : Frame ℚ)).length := by
      rw [List.length_replicate]
      rfl
    rw [e, List.take_left, List.take_length]
  exact ⟨h.2.1 128 hb, (h.2.2 ht).1⟩

/-- C24: the two implementations are equivalent on the audio path. For the same block, the
same flags and the same state, `operator()` of `compression.cpp` and of
`050_CompressorFJ.cpp` leave the same frames, the same states of the gain computer and of
the look-ahead (so they made the same calls on them), the same arrays and the same
`pre_peak`, `duck`, `post_peak`; they differ in what they print: with `debug` set the first
prints three lines for every block, the second at most one. -/
theorem C24_implementations_equivalent {G L : Type} (m : Libm α)
    (lib : SimpleCompressor α G L) (block_size : Nat) (p : CompressorPlugin α G L)
    (frames : AudioIOData α) :
    (p.operator_call_compression m lib block_size frames).frames
        = (p.operator_call m lib block_size frames).frames ∧
    (p.operator_call_compression m lib block_size frames).plugin.gain
        = (p.operator_call m lib block_size frames).plugin.gain ∧
    (p.operator_call_compression m lib block_size frames).plugin.lookahead
        = (p.operator_call m lib block_size frames).plugin.lookahead ∧
    (p.operator_call_compression m lib block_size frames).plugin.sidechain_buf
        = (p.operator_call m lib block_size frames).plugin.sidechain_buf ∧
    (p.operator_call_compression m lib block_size frames).plugin.gain_buf
        = (p.operator_call m lib block_size frames).plugin.gain_buf ∧
    (p.operator_call_compression m lib block_size frames).plugin.look_buf
        = (p.operator_call m lib block_size frames).plugin.look_buf ∧
    (p.operator_call_compression m lib block_size frames).plugin.useLookAhead
        = (p.operator_call m lib block_size frames).plugin.useLookAhead ∧
    (p.operator_call_compression m lib block_size frames).plugin.debug
        = (p.operator_call m lib block_size frames).plugin.debug ∧
    (p.operator_call_compression m lib block_size frames).stats
        = (p.operator_call m lib block_size frames).stats ∧
    (p.debug = true →
      (p.operator_call_compression m lib block_size frames).cout.length = 3 ∧
      (p.operator_call m lib block_size frames).cout.length ≤ 1) := by
  refine ⟨rfl, rfl, rfl, rfl, rfl, rfl, rfl, rfl, rfl, ?_⟩
  intro hd
  refine ⟨?_, ?_⟩
  · rw [operator_call_compression_cout, hd]
    rfl
  · have h := congrArg Prod.fst (operator_call_blockStep m lib block_size p frames).1
    simp only at h
    rw [h, hd, blockStep_length]
    split <;> simp

/-- Witness of C24: with `debug` set, on a block of one frame the implementation of
`compression.cpp` prints three lines and the one of `050_CompressorFJ.cpp` at most one. -/
theorem C24_implementations_equivalent_witness :
    (freshPlugin.operator_call_compression stubLibm (constLib (1 / 2)) 128
        [⟨1, -1⟩]).cout.length = 3 ∧
    (freshPlugin.operator_call stubLibm (constLib (1 / 2)) 128 [⟨1, -1⟩]).cout.length ≤ 1 :=
  (C24_implementations_equivalent stubLibm (constLib (1 / 2)) 128 freshPlugin
    [⟨1, -1⟩]).2.2.2.2.2.2.2.2.2 rfl

/-- C25: diagnostics do not interfere with audio. Whatever `debug` and `previousStats` are
set to, a call of `operator()` on the same block with the same remaining state leaves the
same frames, the same component states, the same arrays and the same `pre_peak`, `duck`,
`post_peak`; and when `debug` is false nothing is printed and `previousStats` is left
unchanged. -/
theorem C25_diagnostics_do_not_interfere {G L : Type} (m : Libm α)
    (lib : SimpleCompressor α G L) (block_size : Nat) (p : CompressorPlugin α G L)
    (frames : AudioIOData α) (debug2 : Bool) (previousStats2 : CompressorStats α) :
    (({ p with debug := debug2, previousStats := previousStats2 } :
        CompressorPlugin α G L).operator_call m lib block_size frames).frames
        = (p.operator_call m lib block_size frames).frames ∧
    (({ p with debug := debug2, previousStats := previousStats2 } :
        CompressorPlugin α G L).operator_call m lib block_size frames).plugin.gain
        = (p.operator_call m lib block_size frames).plugin.gain ∧
    (({ p with debug := debug2, previousStats := previousStats2 } :
        CompressorPlugin α G L).operator_call m lib block_size frames).plugin.lookahead
        = (p.operator_call m lib block_size frames).plugin.lookahead ∧
    (({ p with debug := debug2, previousStats := previousStats2 } :
        CompressorPlugin α G L).operator_call m lib block_size frames).plugin.sidechain_buf
        = (p.operator_call m lib block_size frames).plugin.sidechain_buf ∧
    (({ p with debug := debug2, previousStats := previousStats2 } :
        CompressorPlugin α G L).operator_call m lib block_size frames).plugin.gain_buf
        = (p.operator_call m lib block_size frames).plugin.gain_buf ∧
    (({ p with debug := debug2, previousStats := previousStats2 } :
        CompressorPlugin α G L).operator_call m lib block_size frames).plugin.look_buf
        = (p.operator_call m lib block_size frames).plugin.look_buf ∧
    (({ p with debug := debug2, previousStats := previousStats2 } :
        CompressorPlugin α G L).operator_call m lib block_size frames).stats
        = (p.operator_call m lib block_size frames).stats ∧
    (p.debug = false →
      (p.operator_call m lib block_size frames).cout = [] ∧
      (p.operator_call m lib block_size frames).plugin.previousStats = p.previousStats ∧
      (p.operator_call m lib block_size frames).plugin.debug = false) := by
  refine ⟨rfl, rfl, rfl, rfl, rfl, rfl, rfl, ?_⟩
  intro hd
  have h := (operator_call_blockStep m lib block_size p frames).1
  rw [hd, blockStep_debug_off] at h
  have h1 := congrArg Prod.fst h
  have h2 := congrArg Prod.snd h
  simp only at h1 h2
  exact ⟨h1, h2, hd⟩

/-- Witness of C25: a plugin with `debug` off prints nothing for a block of one frame and
keeps its `previousStats`. -/
theorem C25_diagnostics_do_not_interfere_witness :
    (({ freshPlugin with debug := false } : CompressorPlugin ℚ Unit Unit).operator_call
        stubLibm (constLib (1 / 2)) 128 [⟨1, -1⟩]).cout = [] ∧
    (({ freshPlugin with debug := false } : CompressorPlugin ℚ Unit Unit).operator_call
        stubLibm (constLib (1 / 2)) 128 [⟨1, -1⟩]).plugin.previousStats = ⟨0, 1, 0⟩ ∧
    (({ freshPlugin with debug := false } : CompressorPlugin ℚ Unit Unit).operator_call
        stubLibm (constLib (1 / 2)) 128 [⟨1, -1⟩]).plugin.debug = false :=
  (C25_diagnostics_do_not_interfere stubLibm (constLib (1 / 2)) 128
    ({ freshPlugin with debug := false } : CompressorPlugin ℚ Unit Unit) [⟨1, -1⟩]
    true ⟨0, 0, 0⟩).2.2.2.2.2.2.2 rfl

/-- C26: the approximate equality of `CompressorStats` is reflexive and symmetric but not
transitive: the stats whose `duck` is `0`, `0.00006` and `0.00012` (the other fields `0`)
are equal one to the next, the first and the last are not. -/
theorem C26_approximate_equality_relation :
    (∀ s : CompressorStats α, s.operator_eq s = true) ∧
    (∀ a b : CompressorStats α, a.operator_eq b = b.operator_eq a) ∧
    ((⟨0, 0, 0⟩ : CompressorStats α).operator_eq ⟨0, 6 / 100000, 0⟩ = true ∧
      (⟨0, 6 / 100000, 0⟩ : CompressorStats α).operator_eq ⟨0, 12 / 100000, 0⟩ = true ∧
      (⟨0, 0, 0⟩ : CompressorStats α).operator_eq ⟨0, 12 / 100000, 0⟩ = false) ∧
    ∃ a b c : CompressorStats α,
      a.operator_eq b = true ∧ b.operator_eq c = true ∧ a.operator_eq c = false := by
  have h3 : (⟨0, 0, 0⟩ : CompressorStats α).operator_eq ⟨0, 6 / 100000, 0⟩ = true ∧
      (⟨0, 6 / 100000, 0⟩ : CompressorStats α).operator_eq ⟨0, 12 / 100000, 0⟩ = true ∧
      (⟨0, 0, 0⟩ : CompressorStats α).operator_eq ⟨0, 12 / 100000, 0⟩ = false := by
    refine ⟨?_, ?_, ?_⟩
    · rw [operator_eq_iff]
      norm_num [abs_lt]
    · rw [operator_eq_iff]
      norm_num [abs_lt]
    · rw [operator_eq_false_iff]
      right; left
      norm_num [abs_of_pos]
  refine ⟨operator_eq_self, ?_, h3, ⟨_, _, _, h3⟩⟩
  intro a b
  simp only [CompressorStats.operator_eq, approxEqual, abs_sub_comm a.pre_peak b.pre_peak,
    abs_sub_comm a.duck b.duck, abs_sub_comm a.post_peak b.post_peak]

/-- C27: for every real decibel value `d`, `decibelsToLinear(d)` is strictly positive, it
is at most `1` iff `d ≤ 0`, and `decibelsToLinear(0) = 1`; hence with `useLookAhead` set
the gain of index `i` is in `(0, 1]` exactly when the decibel value that `readSamples` left
in `look_buf[i]` is non-positive. -/
theorem C27_decibels_to_linear_range (G L : Type) (d : ℝ) :
    0 < decibelsToLinear realLibm d ∧
    (decibelsToLinear realLibm d ≤ 1 ↔ d ≤ 0) ∧
    decibelsToLinear realLibm 0 = 1 ∧
    (∀ (lib : SimpleCompressor ℝ G L) (block_size : Nat) (p : CompressorPlugin ℝ G L)
        (frames : AudioIOData ℝ) (i : Nat), p.useLookAhead = true → i < block_size →
      i < (lib.computeGainInDecibelsFromSidechainSignal p.gain
          (p.operator_call realLibm lib block_size frames).plugin.sidechain_buf p.gain_buf
          block_size).2.length →
      (p.operator_call realLibm lib block_size frames).plugin.look_buf[i]? = some d →
      ∃ g : ℝ, (p.operator_call realLibm lib block_size frames).plugin.gain_buf[i]? = some g ∧
        ((0 < g ∧ g ≤ 1) ↔ d ≤ 0)) := by
  refine ⟨decibelsToLinear_real_pos d, decibelsToLinear_real_le_one d, ?_, ?_⟩
  · unfold decibelsToLinear realLibm
    simp
  · intro lib block_size p frames i hla hi hlen hd
    refine ⟨decibelsToLinear realLibm d,
      operator_call_lookahead_gain realLibm lib block_size p frames hla i d hi hlen hd, ?_⟩
    rw [← decibelsToLinear_real_le_one d]
    exact ⟨fun h => h.2, fun h => ⟨decibelsToLinear_real_pos d, h⟩⟩

/-- Witness of C27: `-6` dB gives a gain in `(0, 1]`. -/
theorem C27_decibels_to_linear_range_witness :
    0 < decibelsToLinear realLibm (-6) ∧ decibelsToLinear realLibm (-6) ≤ 1 :=
  ⟨(C27_decibels_to_linear_range Unit Unit (-6)).1,
    (C27_decibels_to_linear_range Unit Unit (-6)).2.1.mpr (by norm_num)⟩

end Compressor

/-! # Claims on notes and sequences -/

namespace Sequencer

variable {α : Type} [LinearOrderedField α]

/-- C20: the note offset constructor. `Note(n, b, m)` has the `freq`, `duration`, `attack` and
`decay` of `n`, `time = n.time + b` and `amp = n.amp * m`; with `m` omitted the amplitude
is `n.amp * 1`. -/
theorem C20_note_offset_constructor (n : Note α) (b m : α) :
    ((Note.offset n b m).freq = n.freq ∧ (Note.offset n b m).duration = n.duration ∧
      (Note.offset n b m).attack = n.attack ∧ (Note.offset n b m).decay = n.decay ∧
      (Note.offset n b m).time = n.time + b ∧ (Note.offset n b m).amp = n.amp * m) ∧
    ((Note.offsetDefault n b).freq = n.freq ∧ (Note.offsetDefault n b).duration = n.duration ∧
      (Note.offsetDefault n b).attack = n.attack ∧ (Note.offsetDefault n b).decay = n.decay ∧
      (Note.offsetDefault n b).time = n.time + b ∧ (Note.offsetDefault n b).amp = n.amp * 1) :=
  ⟨⟨rfl, rfl, rfl, rfl, rfl, rfl⟩, ⟨rfl, rfl, rfl, rfl, rfl, rfl⟩⟩

/-! ## Lemmas on sequences -/

theorem foldl_add_notes {β : Type} (f : Note β → Note β) (l : List (Note β))
    (t : Sequence β) :
    (l.foldl (fun acc note => acc.add (f note)) t).notes = t.notes ++ l.map f ∧
    (l.foldl (fun acc note => acc.add (f note)) t).ts = t.ts := by
  induction l generalizing t with
  | nil => simp
  | cons n rest ih =>
    simp only [List.foldl_cons, List.map_cons]
    rw [(ih (t.add (f n))).1, (ih (t.add (f n))).2]
    simp [Sequence.add]

theorem Sequence.addSequence_notes (t s : Sequence α) (b m : α) :
    (t.addSequence s b m).notes = t.notes ++ s.notes.map (fun n => Note.offset n b m) :=
  (foldl_add_notes (fun n => Note.offset n b m) s.notes t).1

theorem foldl_update_heap {β : Type} (f : Note β → Note β) (l : List (Note β))
    (h : SequenceHeap β) (t : Nat) :
    (l.foldl (fun h1 note => Function.update h1 t ((h1 t).add (f note))) h) t
        = l.foldl (fun acc note => acc.add (f note)) (h t) ∧
    ∀ a : Nat, a ≠ t →
      (l.foldl (fun h1 note => Function.update h1 t ((h1 t).add (f note))) h) a = h a := by
  induction l generalizing h with
  | nil => simp
  | cons n rest ih =>
    simp only [List.foldl_cons]
    refine ⟨?_, ?_⟩
    · rw [(ih _).1]
      simp
    · intro a ha
      rw [(ih _).2 a ha]
      simp [Function.update, ha]

/-- C21: `Sequence::addSequence`. For a target object `t`, a source object `s` at another
address, a start beat `b` and a multiplier `m`: after `t.addSequence(s, b, m)` the notes
of `t` are its previous notes, unchanged and in the same order, followed by `Note(n, b, m)`
for each note `n` of `s` in the order of `s`; the length grows by the length of `s`; `s`
and every other object are unchanged. -/
theorem C21_add_sequence (h : SequenceHeap α) (t s : Nat) (b m : α) (hts : t ≠ s) :
    ((h.addSequence t s b m) t).notes
      = (h t).notes ++ (h s).notes.map (fun n => Note.offset n b m) ∧
    ((h.addSequence t s b m) t).notes.length = (h t).notes.length + (h s).notes.length ∧
    (h.addSequence t s b m) s = h s ∧
    (∀ a : Nat, a ≠ t → (h.addSequence t s b m) a = h a) ∧
    (h.addSequence t s b m) t = (h t).addSequence (h s) b m := by
  have hf := foldl_update_heap (fun n => Note.offset n b m) (h s).notes h t
  have h1 : (h.addSequence t s b m) t = (h t).addSequence (h s) b m := hf.1
  have h2 : ((h.addSequence t s b m) t).notes
      = (h t).notes ++ (h s).notes.map (fun n => Note.offset n b m) := by
    rw [h1]
    exact Sequence.addSequence_notes (h t) (h s) b m
  refine ⟨h2, ?_, hf.2 s (Ne.symm hts), hf.2, h1⟩
  rw [h2]
  simp

/-- Witness of C21: a target with one note at address `0` and a source with two notes at
address `1`, added at beat `4` with multiplier `1/2`. -/
theorem C21_add_sequence_witness :
    ((SequenceHeap.addSequence
        (fun a => if a = 0 then ⟨TimeSignature.default, [Note.make (440 : ℚ) 0 1 1]⟩
          else ⟨TimeSignature.default, [Note.make 220 0 1 1, Note.make 330 1 1 1]⟩)
        0 1 4 (1 / 2)) 0).notes.length = 1 + 2 :=
  (C21_add_sequence
    (fun a => if a = 0 then ⟨TimeSignature.default, [Note.make (440 : ℚ) 0 1 1]⟩
      else ⟨TimeSignature.default, [Note.make 220 0 1 1, Note.make 330 1 1 1]⟩)
    0 1 4 (1 / 2) (by decide)).2.1

/-- C22: `playSequence` with `bpm` beats per minute. For every sequence and every `bpm > 0`
the seconds per beat `60 / bpm` are positive and `playSequence` calls `playNote` exactly
once per note, in list order, with the frequency and amplitude of the note, the start time
`note.time * (60 / bpm)` and the duration `note.duration * (60 / bpm)`; so does the version
of `050_CompressorFJ.cpp`, which passes the instrument along. -/
theorem C22_play_sequence (s : Sequence α) (bpm : α) (instrument : Instrument)
    (hb : 0 < bpm) :
    0 < 60 / bpm ∧
    (playSequence s bpm).length = s.notes.length ∧
    (∀ (i : Nat) (n : Note α), s.notes[i]? = some n →
      ∃ c : PlayNoteCall α, (playSequence s bpm)[i]? = some c ∧ c.freq = n.freq ∧
        c.amp = n.amp ∧ c.time = n.time * (60 / bpm) ∧ c.duration = n.duration * (60 / bpm)) ∧
    (playSequenceInstrument s bpm instrument).length = s.notes.length ∧
    (∀ (i : Nat) (n : Note α), s.notes[i]? = some n →
      ∃ c : PlayNoteCall α, (playSequenceInstrument s bpm instrument)[i]? = some (c, instrument) ∧
        c.freq = n.freq ∧ c.amp = n.amp ∧ c.time = n.time * (60 / bpm) ∧
        c.duration = n.duration * (60 / bpm)) := by
  refine ⟨by positivity, by simp [playSequence], ?_, by simp [playSequenceInstrument], ?_⟩
  · intro i n hn
    refine ⟨PlayNoteCall.mk n.freq (n.time * (60 / bpm)) (n.duration * (60 / bpm)) n.amp
      n.attack n.decay, ?_, rfl, rfl, rfl, rfl⟩
    simp only [playSequence, List.getElem?_map, hn, Option.map_some']
  · intro i n hn
    refine ⟨PlayNoteCall.mk n.freq (n.time * (60 / bpm)) (n.duration * (60 / bpm)) n.amp
      n.attack n.decay, ?_, rfl, rfl, rfl, rfl⟩
    simp only [playSequenceInstrument, List.getElem?_map, hn, Option.map_some']

/-- Witness of C22: a sequence of one note played at `120` beats per minute. -/
theorem C22_play_sequence_witness :
    (playSequence (⟨TimeSignature.default, [Note.make (440 : ℚ) 3 1 1]⟩ : Sequence ℚ) 120).length
      = 1 :=
  (C22_play_sequence (⟨TimeSignature.default, [Note.make (440 : ℚ) 3 1 1]⟩ : Sequence ℚ) 120
    Instrument.INSTR_SQUARE (by norm_num)).2.1

/-- The notes of `sequenceFJ` of `032_TimeSignature.cpp`, phrase by phrase. -/
theorem sequenceFJ_notes (offset : α) :
    (sequenceFJ offset).notes =
      (sequenceFJPhrase1 offset).notes.map (fun n => Note.offset n 0 1) ++
      (sequenceFJPhrase1 offset).notes.map (fun n => Note.offset n 4 (2 / 10)) ++
      (sequenceFJPhrase2 offset).notes.map (fun n => Note.offset n 8 (5 / 10)) ++
      (sequenceFJPhrase2 offset).notes.map (fun n => Note.offset n 12 1) ++
      (sequenceFJPhrase3 offset).notes.map (fun n => Note.offset n 16 1) ++
      (sequenceFJPhrase3 offset).notes.map (fun n => Note.offset n 20 (5 / 10)) ++
      (sequenceFJPhrase4 offset).notes.map (fun n => Note.offset n 24 1) ++
      (sequenceFJPhrase4 offset).notes.map (fun n => Note.offset n 28 (5 / 10)) := by
  simp only [sequenceFJ, Sequence.addSequenceDefault, Sequence.addSequence_notes, Sequence.new,
    List.nil_append]

/-- The notes of `sequenceFJ` of `050_CompressorFJ.cpp`, phrase by phrase. -/
theorem sequenceFJ_050_notes (offset : α) :
    (sequenceFJ_050 offset).notes =
      (sequenceFJPhrase1 offset).notes.map (fun n => Note.offset n 0 1) ++
      (sequenceFJPhrase1 offset).notes.map (fun n => Note.offset n 4 (2 / 10)) ++
      (sequenceFJPhrase2_050 offset).notes.map (fun n => Note.offset n 8 (5 / 10)) ++
      (sequenceFJPhrase2_050 offset).notes.map (fun n => Note.offset n 12 1) ++
      (sequenceFJPhrase3_050 offset).notes.map (fun n => Note.offset n 16 1) ++
      (sequenceFJPhrase3_050 offset).notes.map (fun n => Note.offset n 20 (5 / 10)) ++
      (sequenceFJPhrase4 offset).notes.map (fun n => Note.offset n 24 1) ++
      (sequenceFJPhrase4 offset).notes.map (fun n => Note.offset n 28 (5 / 10)) := by
  simp only [sequenceFJ_050, Sequence.addSequenceDefault, Sequence.addSequence_notes,
    Sequence.new, List.nil_append]

/-- C28: the structured Frere Jacques sequence preserves the hardcoded melody. For every
pitch factor `offset`, `sequenceFJ(offset)` of `032_TimeSignature.cpp` and of
`050_CompressorFJ.cpp` has exactly 32 notes whose `(frequency, beat time, duration)` are, in
the same order, those of the 32 `playNote` calls of `playSequenceB(offset)` of
`030_FrereJacque.cpp`; the amplitudes are not the same. -/
theorem C28_frere_jacques_melody (offset : α) :
    (sequenceFJ offset).notes.length = 32 ∧ (sequenceFJ_050 offset).notes.length = 32 ∧
    (playSequenceB offset).length = 32 ∧
    (sequenceFJ offset).notes.map Note.triple
      = (playSequenceB offset).map PlayNoteCall.triple ∧
    (sequenceFJ_050 offset).notes.map Note.triple
      = (playSequenceB offset).map PlayNoteCall.triple ∧
    (sequenceFJ offset).notes.map (fun n => n.amp)
      ≠ (playSequenceB offset).map (fun c => c.amp) ∧
    (sequenceFJ_050 offset).notes.map (fun n => n.amp)
      ≠ (playSequenceB offset).map (fun c => c.amp) := by
  refine ⟨?_, ?_, rfl, ?_, ?_, ?_, ?_⟩
  · rw [sequenceFJ_notes]
    simp [sequenceFJPhrase1, sequenceFJPhrase2, sequenceFJPhrase3, sequenceFJPhrase4,
      Sequence.add, Sequence.new]
  · rw [sequenceFJ_050_notes]
    simp [sequenceFJPhrase1, sequenceFJPhrase2_050, sequenceFJPhrase3_050, sequenceFJPhrase4,
      Sequence.add, Sequence.new]
  · rw [sequenceFJ_notes]
    simp only [sequenceFJPhrase1, sequenceFJPhrase2, sequenceFJPhrase3, sequenceFJPhrase4,
      Sequence.add, Sequence.new, List.nil_append, List.cons_append, List.map_cons,
      List.map_nil, List.map_append, Note.offset, Note.make, Note.triple, playSequenceB,
      playNoteCall, PlayNoteCall.triple]
    norm_num
  · rw [sequenceFJ_050_notes]
    simp only [sequenceFJPhrase1, sequenceFJPhrase2_050, sequenceFJPhrase3_050,
      sequenceFJPhrase4, Sequence.add, Sequence.new, List.nil_append, List.cons_append,
      List.map_cons, List.map_nil, List.map_append, Note.offset, Note.make, Note.triple,
      playSequenceB, playNoteCall, PlayNoteCall.triple]
    norm_num
  · intro h
    rw [sequenceFJ_notes] at h
    have h2 := congrArg List.head? h
    simp only [sequenceFJPhrase1, Sequence.add, Sequence.new, List.nil_append,
      List.cons_append, List.map_cons, List.map_nil, List.map_append, Note.offset, Note.make,
      playSequenceB, playNoteCall, List.head?_cons, Option.some.injEq] at h2
    norm_num at h2
  · intro h
    rw [sequenceFJ_050_notes] at h
    have h2 := congrArg List.head? h
    simp only [sequenceFJPhrase1, Sequence.add, Sequence.new, List.nil_append,
      List.cons_append, List.map_cons, List.map_nil, List.map_append, Note.offset, Note.make,
      playSequenceB, playNoteCall, List.head?_cons, Option.some.injEq] at h2
    norm_num at h2

end Sequencer
